import Mathlib

/-!
The E012 protocol (HS6200 emulation on the nRF24L01)

A shallow embedding of `src/protocol/e012_nrf24l01.c`.

* C arrays are functions `Nat → Nat` from index to element; an access whose
  index is computed at run time goes through `rd` or `wr`, which fail (`none`)
  outside the declared size of the array.
* `u8`, `u16` and `s32` values are `Nat` or `Int` with an explicit reduction
  wherever the C code narrows a value; a parameter of type `u8` or `u16` is
  reduced where the function first uses it.
* Calls into the transceiver driver, the scheduler and the bind observer are
  recorded as a list of `Call` values, in program order.
* Values that the file takes from headers that are not part of the sources
  are fields of `Platform`; values that the environment supplies while the code
  runs are fields of `Env`.
-/

namespace E012

set_option maxRecDepth 8192

/-! ## External collaborators -/

/-- Registers the file names; `num` is a register addressed by its number. -/
inductive Reg
  | NRF24L01_00_CONFIG
  | NRF24L01_01_EN_AA
  | NRF24L01_03_SETUP_AW
  | NRF24L01_04_SETUP_RETR
  | NRF24L01_05_RF_CH
  | NRF24L01_07_STATUS
  | NRF24L01_10_TX_ADDR
  | NRF24L01_1C_DYNPD
  | NRF24L01_1D_FEATURE
  | num (n : Nat)
  deriving DecidableEq, Repr

/-- One call made by the file into code outside it, with its arguments. -/
inductive Call
  | NRF24L01_Initialize
  | NRF24L01_SetTxRxMode_TX_EN
  | NRF24L01_WriteRegisterMulti (reg : Reg) (data : List Nat)
  | NRF24L01_WriteReg (reg : Reg) (value : Nat)
  | NRF24L01_ReadReg (reg : Reg)
  | NRF24L01_FlushTx
  | NRF24L01_FlushRx
  | NRF24L01_SetBitrate_BR_1M
  | NRF24L01_SetPower (power : Nat)
  | NRF24L01_Activate (code : Nat)
  | NRF24L01_WritePayload (data : List Nat)
  | MCU_SerialNumber (len : Nat)
  | PROTOCOL_SetBindState (msec : Nat)
  | CLOCK_StopTimer
  | CLOCK_StartTimer (us : Nat)
  deriving DecidableEq, Repr

/-- Values the file takes from headers and from the build that are not part of
the sources: the power ceiling, the channel limits, the bit positions of the
CONFIG register, the `EMULATOR` build flag, the size of `Model.fixed_id` and
the generator `rand32_r`, taken as a function of its 32-bit state and the byte
folded in, returning the new state. -/
structure Platform where
  TXPOWER_10mW : Nat
  CHAN_MAX_VALUE : Int
  CHAN_MIN_VALUE : Int
  NRF24L01_00_EN_CRC : Nat
  NRF24L01_00_CRCO : Nat
  NRF24L01_00_PWR_UP : Nat
  EMULATOR : Bool
  sizeof_fixed_id : Nat
  rand32_r : Nat → Nat → Nat

/-- What the environment supplies during one entry into the file: the model
configuration, the mixer outputs, the serial number bytes, the value read from
the status register, and the indeterminate contents of the stack where the
local `payload[32]` of `HS6200_WritePayload` is placed. -/
structure Env where
  Model_tx_power : Nat
  Model_fixed_id : Nat
  Channels : Nat → Int
  serial : Nat → Nat
  status : Nat
  stack : Nat → Nat

/-! ## Constants (lines 41-61, 63, 101, 104-106) -/

def BIND_COUNT (p : Platform) : Nat := if p.EMULATOR then 4 else 500
def USE_FIXED_MFGID (p : Platform) : Bool := p.EMULATOR
def PACKET_PERIOD : Nat := 1000
def INITIAL_WAIT : Nat := 500
def RF_BIND_CHANNEL : Nat := 0x3c
def ADDRESS_LENGTH : Nat := 5
def NUM_RF_CHANNELS : Nat := 4
def PACKET_SIZE : Nat := 15

def bind_address : List Nat := [0x55, 0x42, 0x9C, 0x8F, 0xC9]

def crc_poly : Nat := 0x1021

def hs6200_scramble : List Nat :=
  [0x80, 0xf5, 0x3b, 0x0d, 0x6d, 0x2a, 0xf9, 0xbc,
   0x51, 0x8e, 0x4c, 0xfd, 0xc1, 0x65, 0xd0]

def CHANNEL1 : Nat := 0
def CHANNEL2 : Nat := 1
def CHANNEL3 : Nat := 2
def CHANNEL4 : Nat := 3
def CHANNEL6 : Nat := 5
def CHANNEL9 : Nat := 8
def CHANNEL10 : Nat := 9
def CHANNEL_FLIP : Nat := CHANNEL6
def CHANNEL_HEADLESS : Nat := CHANNEL9
def CHANNEL_RTH : Nat := CHANNEL10

/-- Bit vector from bit position. -/
def BV (bit : Nat) : Nat := 1 <<< bit

/-- The two values of `phase`. -/
inductive Phase
  | BIND
  | DATA
  deriving DecidableEq, Repr

/-- The file-scope variables, and the function-local static `pid` of
`HS6200_WritePayload`. -/
structure State where
  tx_addr : Nat → Nat
  rf_chans : Nat → Nat
  packet : List Nat
  phase : Phase
  bind_counter : Nat
  tx_power : Nat
  current_chan : Nat
  hs6200_crc : Nat
  hs6200_crc_init : Nat
  hs6200_tx_addr : Nat → Nat
  pid : Nat

/-- The variables at program start: static storage is zero-initialised. -/
def State.zero : State :=
  { tx_addr := fun _ => 0, rf_chans := fun _ => 0, packet := List.replicate 15 0,
    phase := Phase.BIND, bind_counter := 0, tx_power := 0, current_chan := 0,
    hs6200_crc := 0, hs6200_crc_init := 0, hs6200_tx_addr := fun _ => 0, pid := 0 }

/-! ## Array access -/

/-- A constant table as an array. -/
def arr (l : List Nat) : Nat → Nat := fun i => l.getD i 0

/-- Element `i` of an array of `n` elements; `none` outside the array. -/
def rd (n : Nat) (a : Nat → Nat) (i : Nat) : Option Nat :=
  if i < n then some (a i) else none

/-- Store `v` at index `i` of an array of `n` elements; `none` outside the array. -/
def wr (n : Nat) (a : Nat → Nat) (i v : Nat) : Option (Nat → Nat) :=
  if i < n then some (Function.update a i v) else none

/-- The first `n` bytes of `dst` replaced by those of `src`. -/
def memcpy (dst src : Nat → Nat) (n : Nat) : Nat → Nat :=
  fun i => if i < n then src i else dst i

/-- The first `n` elements of an array, as handed to a driver call. -/
def bytes (a : Nat → Nat) (n : Nat) : List Nat := (List.range n).map a

/-! ## HS6200 emulation layer (lines 98-189) -/

/-- One turn of the loop of `crc_update`: shift left by one bit, and fold the
polynomial in when the bit shifted out was set. -/
def crc_shift (crc : Nat) : Nat :=
  if crc &&& 0x8000 = 0x8000 then ((crc <<< 1) ^^^ crc_poly) % 65536
  else (crc <<< 1) % 65536

/-- The loop `while(bits--)` of `crc_update`. -/
def crc_bits : Nat → Nat → Nat
  | 0, crc => crc
  | bits + 1, crc => crc_bits bits (crc_shift crc)

def crc_update (crc byte bits : Nat) : Nat :=
  crc_bits bits (((crc % 65536) ^^^ ((byte % 256) <<< 8)) % 65536)

def HS6200_SetTXAddr (addr : Nat → Nat) (len : Nat) (s : State) : State × List Call :=
  let crc_init := (List.range len).foldl
    (fun crc i => crc_update crc (addr (len - 1 - i)) 8) 0xffff
  ({ s with hs6200_crc_init := crc_init,
            hs6200_tx_addr := memcpy s.hs6200_tx_addr addr len },
   [Call.NRF24L01_WriteRegisterMulti Reg.NRF24L01_10_TX_ADDR (bytes addr len)])

/-- The loop `for(pos=0; pos < len-1; pos++)` of `hs6200_calc_crc`, with
`n` turns left; `msg` is the array the pointer argument points into. -/
def calc_crc_loop (msg : Nat → Option Nat) : Nat → Nat → Nat → Option (Nat × Nat)
  | 0, pos, crc => some (pos, crc)
  | n + 1, pos, crc => do
      let b ← msg pos
      calc_crc_loop msg n (pos + 1) (crc_update crc b 8)

def hs6200_calc_crc (s : State) (msg : Nat → Option Nat) (len : Nat) : Option Nat := do
  let (pos, crc) ← calc_crc_loop msg (len - 1) 0 s.hs6200_crc_init
  if len > 0 then
    let b ← msg (pos + 1)
    pure (crc_update crc b 1)
  else
    pure crc

def HS6200_Configure (p : Platform) (flags : Nat) (s : State) : State × List Call :=
  let hs6200_crc := if flags &&& BV p.NRF24L01_00_EN_CRC ≠ 0 then 1 else 0
  let flags := flags &&& (0xff ^^^ ((BV p.NRF24L01_00_EN_CRC ||| BV p.NRF24L01_00_CRCO) &&& 0xff))
  ({ s with hs6200_crc := hs6200_crc },
   [Call.NRF24L01_WriteReg Reg.NRF24L01_00_CONFIG (flags &&& 0xff)])

/-- The loop `for(u8 i=1; i<len; i++)` of `HS6200_WritePayload`, with `n` turns
left. -/
def scramble_loop (msg : List Nat) :
    Nat → Nat → (Nat → Nat) → Nat → Option ((Nat → Nat) × Nat)
  | 0, _, payload, pos => some (payload, pos)
  | n + 1, i, payload, pos => do
      let a ← msg[i - 1]?
      let sa ← hs6200_scramble[i - 1]?
      let b ← msg[i]?
      let sb ← hs6200_scramble[i]?
      let payload ← wr 32 payload pos ((((a ^^^ sa) <<< 7) ||| ((b ^^^ sb) >>> 1)) % 256)
      scramble_loop msg n (i + 1) payload (pos + 1)

/-- The part of `HS6200_WritePayload` under `if(len > 0)`. -/
def scramble_payload (msg : List Nat) (len : Nat) (payload : Nat → Nat) (pos : Nat) :
    Option ((Nat → Nat) × Nat) :=
  if len > 0 then do
    let m0 ← msg[0]?
    let s0 ← hs6200_scramble[0]?
    let old ← rd 32 payload pos
    let payload ← wr 32 payload pos ((old ||| ((m0 ^^^ s0) >>> 1)) % 256)
    let (payload, pos) ← scramble_loop msg (len - 1) 1 payload (pos + 1)
    let ml ← msg[len - 1]?
    let sl ← hs6200_scramble[len - 1]?
    let payload ← wr 32 payload pos (((ml ^^^ sl) <<< 7) % 256)
    pure (payload, pos)
  else
    pure (payload, pos)

/-- The part of `HS6200_WritePayload` under `if(hs6200_crc)`. -/
def append_crc (s : State) (len : Nat) (payload : Nat → Nat) (pos : Nat) :
    Option ((Nat → Nat) × Nat) :=
  if s.hs6200_crc ≠ 0 then do
    let crc ← hs6200_calc_crc s (fun i => rd 32 payload (2 + i)) ((len + 2) % 256)
    let hcrc := (crc >>> 8) % 256
    let lcrc := crc &&& 0xff
    let old ← rd 32 payload pos
    let payload ← wr 32 payload pos ((old ||| (hcrc >>> 1)) % 256)
    let payload ← wr 32 payload (pos + 1) (((hcrc <<< 7) ||| (lcrc >>> 1)) % 256)
    let payload ← wr 32 payload (pos + 2) ((lcrc <<< 7) % 256)
    pure (payload, pos + 3)
  else
    pure (payload, pos)

/-- The local `payload[32]` starts with the indeterminate contents `stack`;
`msg` is the array behind the pointer argument. -/
def HS6200_WritePayload (stack : Nat → Nat) (msg : List Nat) (len : Nat) (s : State) :
    Option (State × List Call) := do
  let no_ack := 1
  let payload := stack
  let payload ← wr 32 payload 0 (s.hs6200_tx_addr 0)
  let payload ← wr 32 payload 1 (s.hs6200_tx_addr 0)
  let payload ← wr 32 payload 2 ((((len &&& 0x3f) <<< 2) ||| (s.pid &&& 0x03)) % 256)
  let payload ← wr 32 payload 3 (((no_ack &&& 0x01) <<< 7) % 256)
  let pid := (s.pid + 1) % 256
  let (payload, pos) ← scramble_payload msg len payload 3
  let (payload, pos) ← append_crc s len payload pos
  pure ({ s with pid := pid }, [Call.NRF24L01_WritePayload (bytes payload pos)])

/-! ## Payload assembly (lines 191-254) -/

/-- Wrap-around of a value to the range of `s32`. -/
def s32 (x : Int) : Int := (x + 2147483648) % 4294967296 - 2147483648

def CHAN_RANGE (p : Platform) : Int := s32 (p.CHAN_MAX_VALUE - p.CHAN_MIN_VALUE)

def scale_channel (p : Platform) (env : Env) (ch destMin destMax : Nat) : Nat :=
  let chanval : Int := env.Channels ch
  let range : Int := s32 ((destMax : Int) - (destMin : Int))
  let chanval : Int :=
    if chanval < p.CHAN_MIN_VALUE then p.CHAN_MIN_VALUE
    else if chanval > p.CHAN_MAX_VALUE then p.CHAN_MAX_VALUE
    else chanval
  (s32 (Int.tdiv (s32 (range * s32 (chanval - p.CHAN_MIN_VALUE))) (CHAN_RANGE p)
    + (destMin : Int)) % 65536).toNat

def GET_FLAG (env : Env) (ch mask : Nat) : Nat := if env.Channels ch > 0 then mask else 0

/-- The 15 bytes of `packet` after the assignments of `send_packet`; every
element is assigned on both branches. -/
def build_packet (p : Platform) (env : Env) (bind : Nat) (s : State) : List Nat :=
  if bind ≠ 0 then
    [s.tx_addr 1, 0xaa,
     s.rf_chans 0, s.rf_chans 1, s.rf_chans 2, s.rf_chans 3,
     s.tx_addr 0, s.tx_addr 1, s.tx_addr 2, s.tx_addr 3, s.tx_addr 4,
     0x00, 0x00, 0x56, s.tx_addr 2]
  else
    [s.tx_addr 1,
     0x01 ||| GET_FLAG env CHANNEL_RTH 0x04 ||| GET_FLAG env CHANNEL_HEADLESS 0x10
          ||| GET_FLAG env CHANNEL_FLIP 0x40,
     scale_channel p env CHANNEL1 0xc8 0x00 % 256,
     scale_channel p env CHANNEL2 0x00 0xc8 % 256,
     scale_channel p env CHANNEL4 0xc8 0x00 % 256,
     scale_channel p env CHANNEL3 0x00 0xc8 % 256,
     0xaa, 0x02, 0x00, 0x00, 0x00,
     0x00, 0x00, 0x56, s.tx_addr 2]

/-- The check of the transmission power that ends `send_packet` (lines 243-253). -/
def adjust_power (p : Platform) (env : Env) (s : State) : State × List Call :=
  let tx_power := if s.tx_power > p.TXPOWER_10mW then p.TXPOWER_10mW % 256 else s.tx_power
  if tx_power ≠ env.Model_tx_power then
    let tx_power := env.Model_tx_power % 256
    ({ s with tx_power := tx_power }, [Call.NRF24L01_SetPower tx_power])
  else
    ({ s with tx_power := tx_power }, [])

def send_packet (p : Platform) (env : Env) (bind : Nat) (s : State) :
    Option (State × List Call) := do
  let s := { s with packet := build_packet p env bind s }
  let (s, c1) := HS6200_Configure p
    ((BV p.NRF24L01_00_EN_CRC ||| BV p.NRF24L01_00_CRCO ||| BV p.NRF24L01_00_PWR_UP) % 256) s
  let (chan, s) ←
    if bind ≠ 0 then some (RF_BIND_CHANNEL, s)
    else do
      let ch ← rd NUM_RF_CHANNELS s.rf_chans s.current_chan
      pure (ch, { s with current_chan := (s.current_chan + 1) % 256 })
  let c2 := [Call.NRF24L01_WriteReg Reg.NRF24L01_05_RF_CH chan]
  let s := { s with current_chan := s.current_chan % NUM_RF_CHANNELS }
  let c3 := [Call.NRF24L01_WriteReg Reg.NRF24L01_07_STATUS 0x70, Call.NRF24L01_FlushTx]
  let (s, c4) ← HS6200_WritePayload env.stack s.packet PACKET_SIZE s
  let (s, c5) := adjust_power p env s
  pure (s, c1 ++ c2 ++ c3 ++ c4 ++ c5)

/-! ## Hardware bring-up (lines 256-302) -/

/-- The register writes made when a Beken BK2421 answers the bank switch. -/
def bk2421_setup : List Call :=
  [Call.NRF24L01_WriteRegisterMulti (Reg.num 0x00) [0x40, 0x4B, 0x01, 0xE2],
   Call.NRF24L01_WriteRegisterMulti (Reg.num 0x01) [0xC0, 0x4B, 0x00, 0x00],
   Call.NRF24L01_WriteRegisterMulti (Reg.num 0x02) [0xD0, 0xFC, 0x8C, 0x02],
   Call.NRF24L01_WriteRegisterMulti (Reg.num 0x03) [0x99, 0x00, 0x39, 0x21],
   Call.NRF24L01_WriteRegisterMulti (Reg.num 0x04) [0xD9, 0x96, 0x82, 0x1B],
   Call.NRF24L01_WriteRegisterMulti (Reg.num 0x05) [0x24, 0x06, 0x7F, 0xA6],
   Call.NRF24L01_WriteRegisterMulti (Reg.num 0x0C) [0x00, 0x12, 0x73, 0x00],
   Call.NRF24L01_WriteRegisterMulti (Reg.num 0x0D) [0x46, 0xB4, 0x80, 0x00],
   Call.NRF24L01_WriteRegisterMulti (Reg.num 0x04) [0xDF, 0x96, 0x82, 0x1B],
   Call.NRF24L01_WriteRegisterMulti (Reg.num 0x04) [0xD9, 0x96, 0x82, 0x1B]]

def e012_init (env : Env) (s : State) : State × List Call :=
  let c0 := [Call.NRF24L01_Initialize, Call.NRF24L01_SetTxRxMode_TX_EN]
  let (s, c1) := HS6200_SetTXAddr (arr bind_address) ADDRESS_LENGTH s
  let c2 :=
    [Call.NRF24L01_FlushTx,
     Call.NRF24L01_FlushRx,
     Call.NRF24L01_WriteReg Reg.NRF24L01_07_STATUS 0x70,
     Call.NRF24L01_WriteReg Reg.NRF24L01_01_EN_AA 0x00,
     Call.NRF24L01_WriteReg Reg.NRF24L01_03_SETUP_AW 0x03,
     Call.NRF24L01_WriteReg Reg.NRF24L01_04_SETUP_RETR 0x00,
     Call.NRF24L01_SetBitrate_BR_1M,
     Call.NRF24L01_SetPower env.Model_tx_power,
     Call.NRF24L01_Activate 0x73,
     Call.NRF24L01_WriteReg Reg.NRF24L01_1C_DYNPD 0x00,
     Call.NRF24L01_WriteReg Reg.NRF24L01_1D_FEATURE 0x01,
     Call.NRF24L01_Activate 0x73,
     Call.NRF24L01_Activate 0x53,
     Call.NRF24L01_ReadReg Reg.NRF24L01_07_STATUS]
  let c3 := if env.status &&& 0x80 ≠ 0 then bk2421_setup else []
  (s, c0 ++ c1 ++ c2 ++ c3 ++ [Call.NRF24L01_Activate 0x53])

/-! ## Identity derivation (lines 304-341) -/

/-- The generator state after folding the bytes of `l` in, first to last. -/
def fold_bytes (p : Platform) (lfsr : Nat) (l : List Nat) : Nat :=
  l.foldl (fun st b => p.rand32_r st b) lfsr

def initialize_txid (p : Platform) (env : Env) (s : State) : State × List Call :=
  let lfsr : Nat := 0xb2c54a2f
  let (lfsr, c) :=
    if USE_FIXED_MFGID p then (lfsr, [])
    else (fold_bytes p lfsr (bytes env.serial 12), [Call.MCU_SerialNumber 12])
  let lfsr :=
    if env.Model_fixed_id ≠ 0 then
      fold_bytes p lfsr ((List.range p.sizeof_fixed_id).map
        (fun i => (env.Model_fixed_id >>> ((8 * i) % 256)) &&& 0xff))
    else lfsr
  let lfsr := fold_bytes p lfsr (List.replicate 4 0)
  let a0 := (lfsr >>> (0 * 8)) &&& 0xff
  let a1 := (lfsr >>> (1 * 8)) &&& 0xff
  let a2 := (lfsr >>> (2 * 8)) &&& 0xff
  let a3 := (lfsr >>> (3 * 8)) &&& 0xff
  let lfsr := p.rand32_r lfsr 0
  let a4 := lfsr &&& 0xff
  let lfsr := p.rand32_r lfsr 0
  let ch := (lfsr % 0x51) % 256
  ({ s with tx_addr := memcpy s.tx_addr (arr [a0, a1, a2, a3, a4]) 5,
            rf_chans := memcpy s.rf_chans (arr [ch, ch, ch, ch]) NUM_RF_CHANNELS }, c)

/-! ## Session state machine (lines 343-379) -/

/-- The returned value is the period until the next call. -/
def e012_callback (p : Platform) (env : Env) (s : State) : Option (Nat × State × List Call) :=
  match s.phase with
  | Phase.BIND =>
      if s.bind_counter = 0 then
        let (s, c) := HS6200_SetTXAddr s.tx_addr 5 s
        some (PACKET_PERIOD, { s with phase := Phase.DATA }, c ++ [Call.PROTOCOL_SetBindState 0])
      else do
        let (s, c) ← send_packet p env 1 s
        pure (PACKET_PERIOD, { s with bind_counter := (s.bind_counter + 65535) % 65536 }, c)
  | Phase.DATA => do
      let (s, c) ← send_packet p env 0 s
      pure (PACKET_PERIOD, s, c)

/-- The function `initialize` of the file, entered for PROTOCMD_INIT and for
PROTOCMD_BIND; its name is a reserved word here, hence the longer one. -/
def initialize_protocol (p : Platform) (env : Env) (s : State) : State × List Call :=
  let c0 := [Call.CLOCK_StopTimer]
  let s := { s with tx_power := env.Model_tx_power % 256 }
  let s := if s.tx_power > p.TXPOWER_10mW then { s with tx_power := p.TXPOWER_10mW % 256 } else s
  let (s, c1) := initialize_txid p env s
  let (s, c2) := e012_init env s
  let s := { s with bind_counter := BIND_COUNT p % 65536, current_chan := 0 }
  let c3 := [Call.PROTOCOL_SetBindState (BIND_COUNT p * PACKET_PERIOD / 1000)]
  let s := { s with phase := Phase.BIND }
  (s, c0 ++ c1 ++ c2 ++ c3 ++ [Call.CLOCK_StartTimer INITIAL_WAIT])

/-- The scheduler calling `e012_callback` once per element of `envs`, each
call seeing its own environment; the result is the last state and the calls
made, in order. -/
def ticks (p : Platform) : List Env → State → Option (State × List Call)
  | [], s => some (s, [])
  | env :: envs, s => do
      let (_, s, c) ← e012_callback p env s
      let (s, cs) ← ticks p envs s
      pure (s, c ++ cs)

/-! ## Closed forms used in the proofs -/

/-- Byte `j` of the message after whitening with the scramble table. -/
def scrambled (msg : List Nat) (j : Nat) : Nat := msg.getD j 0 ^^^ hs6200_scramble.getD j 0

/-- The output byte that straddles scrambled bytes `k - 1` and `k`. -/
def straddle (msg : List Nat) (k : Nat) : Nat :=
  ((scrambled msg (k - 1) <<< 7) ||| (scrambled msg k >>> 1)) % 256

/-- The working buffer once the header and the scrambled payload are stored:
guard bytes, control byte, the no-ack bit with the first seven payload bits,
the straddling bytes, the byte holding the last payload bit, and beyond it
what the stack held. -/
def packed_body (s : State) (stack : Nat → Nat) (msg : List Nat) : Nat → Nat := fun j =>
  if j < 2 then s.hs6200_tx_addr 0
  else if j = 2 then (((msg.length &&& 0x3f) <<< 2) ||| (s.pid &&& 0x03)) % 256
  else if j = 3 then
    (if msg.length = 0 then 0x80 else (0x80 ||| (scrambled msg 0 >>> 1)) % 256)
  else if j < 3 + msg.length then straddle msg (j - 3)
  else if j = 3 + msg.length then (scrambled msg (msg.length - 1) <<< 7) % 256
  else stack j

/-- The four header stores of `HS6200_WritePayload`. -/
def header (s : State) (stack : Nat → Nat) (len : Nat) : Nat → Nat :=
  Function.update (Function.update (Function.update (Function.update stack
    0 (s.hs6200_tx_addr 0)) 1 (s.hs6200_tx_addr 0))
    2 ((((len &&& 0x3f) <<< 2) ||| (s.pid &&& 0x03)) % 256)) 3 128

/-- The value `hs6200_calc_crc` returns for a payload of `len` bytes: the seed
folded over buffer bytes 2 to `len + 2`, then over the top bit of buffer byte
`len + 4`. -/
def crc_value (s : State) (payload : Nat → Nat) (len : Nat) : Nat :=
  crc_update ((List.range (len + 1)).foldl
    (fun c k => crc_update c (payload (2 + k)) 8) s.hs6200_crc_init) (payload (len + 4)) 1

/-- The three stores that pack the checksum `crc` behind the payload. -/
def with_crc (crc : Nat) (payload : Nat → Nat) (pos : Nat) : Nat → Nat :=
  Function.update (Function.update (Function.update payload
    pos ((payload pos ||| (((crc >>> 8) % 256) >>> 1)) % 256))
    (pos + 1) (((((crc >>> 8) % 256) <<< 7) ||| ((crc &&& 0xff) >>> 1)) % 256))
    (pos + 2) (((crc &&& 0xff) <<< 7) % 256)

/-- The frame `HS6200_WritePayload` hands to the driver for a message of at
most 15 bytes. -/
def frame (s : State) (stack : Nat → Nat) (msg : List Nat) : List Nat :=
  if s.hs6200_crc ≠ 0 then
    bytes (with_crc (crc_value s (packed_body s stack msg) msg.length)
      (packed_body s stack msg) (3 + msg.length)) (3 + msg.length + 3)
  else bytes (packed_body s stack msg) (3 + msg.length)

/-! ## Reference definitions and concrete inputs -/

/-- One step of the reference CRC-16 of the claims, which follows their
words and not the code: polynomial 0x1021, most significant bit first; the
register is shifted left and the polynomial folded in when the bit shifted out
differs from the message bit. -/
def crc16_reference_bit (crc : Nat) (bit : Bool) : Nat :=
  let shifted := (crc <<< 1) % 65536
  if (crc.testBit 15) != bit then shifted ^^^ 0x1021 else shifted

/-- The bits of a byte, most significant first. -/
def msb_first (byte : Nat) : List Bool := (List.range 8).map (fun k => byte.testBit (7 - k))

/-- The reference CRC-16 of a bit string: initial value 0xFFFF, no final XOR. -/
def crc16_reference (bits : List Bool) : Nat := bits.foldl crc16_reference_bit 0xFFFF

/-- The reference checksum of a frame, following the words of the claim: the
address bytes in reverse order, then the control byte, the no-ack bit and the
scrambled payload, bit by bit. -/
def reference_checksum (addr : List Nat) (pid : Nat) (msg : List Nat) : Nat :=
  crc16_reference
    (addr.reverse.flatMap msb_first
      ++ msb_first ((((msg.length &&& 0x3f) <<< 2) ||| (pid &&& 0x03)) % 256)
      ++ [true]
      ++ (List.range msg.length).flatMap (fun i => msb_first (scrambled msg i)))

/-- The 16 bits a frame carries behind a payload of `len` bytes: the low seven
bits of byte `3 + len`, byte `4 + len`, and the top bit of byte `5 + len`. -/
def packed_checksum (f : List Nat) (len : Nat) : Nat :=
  ((f.getD (3 + len) 0 % 128) <<< 9) ||| (f.getD (4 + len) 0 <<< 1) ||| (f.getD (5 + len) 0 >>> 7)

/-- Payload byte `i` read back from a frame: the eight bits that follow the 25
header bits and the `8 * i` bits before them, with the whitening removed; `none`
when the frame does not hold all eight bits. -/
def recover_byte (f : List Nat) (i : Nat) : Option Nat := do
  let hi ← f[3 + i]?
  let lo ← f[4 + i]?
  let key ← hs6200_scramble[i]?
  pure ((((hi % 128) <<< 1) ||| (lo >>> 7)) ^^^ key)

/-- The `len` payload bytes read back from a frame. -/
def recover_payload (f : List Nat) (len : Nat) : List (Option Nat) :=
  (List.range len).map (recover_byte f)

/-- The frames handed to the driver by a list of calls, in order. -/
def frames (calls : List Call) : List (List Nat) :=
  calls.filterMap (fun c => match c with
    | Call.NRF24L01_WritePayload f => some f
    | _ => none)

/-- The power levels programmed by a list of calls, in order. -/
def powers (calls : List Call) : List Nat :=
  calls.filterMap (fun c => match c with
    | Call.NRF24L01_SetPower v => some v
    | _ => none)

/-- The values written to the RF channel register by a list of calls, in order. -/
def rf_channels (calls : List Call) : List Nat :=
  calls.filterMap (fun c => match c with
    | Call.NRF24L01_WriteReg Reg.NRF24L01_05_RF_CH v => some v
    | _ => none)

/-- The environment with mixer output `ch` set to `v`. -/
def with_channel (env : Env) (ch : Nat) (v : Int) : Env :=
  { env with Channels := Function.update env.Channels ch v }

/-- Modelled from the spec: `rand32_r` is declared outside the sources. The
spec describes a generator with a 32-bit state that every folded byte
advances by a multiplicative and additive step; this instance only serves to
evaluate the code on concrete inputs. -/
def rand32_r_model (state byte : Nat) : Nat :=
  (state * 1664525 + 1013904223 + byte) % 4294967296

/-- A hardware build: power levels numbered from 0 with 10mW the fifth, channel
limits of plus and minus 10000, the CONFIG bits of the nRF24L01. -/
def hardware : Platform :=
  { TXPOWER_10mW := 4, CHAN_MAX_VALUE := 10000, CHAN_MIN_VALUE := -10000,
    NRF24L01_00_EN_CRC := 3, NRF24L01_00_CRCO := 2, NRF24L01_00_PWR_UP := 1,
    EMULATOR := false, sizeof_fixed_id := 4, rand32_r := rand32_r_model }

/-- The same values in an `EMULATOR` build. -/
def emulator : Platform := { hardware with EMULATOR := true }

/-- An environment with centred sticks, serial number 1 to 12, no fixed id,
zeroed stack and the given configured power. -/
def bench (power : Nat) : Env :=
  { Model_tx_power := power, Model_fixed_id := 0, Channels := fun _ => 0,
    serial := fun i => i + 1, status := 0, stack := fun _ => 0 }

/-- The codec as `e012_init` leaves it (bind address active), with the
checksum flag set to `crc`. -/
def bind_codec (crc : Nat) : State :=
  (HS6200_SetTXAddr (arr bind_address) ADDRESS_LENGTH { State.zero with hs6200_crc := crc }).1

/-- The calls a function made, when it returned. -/
def calls_of (r : Option (State × List Call)) : Option (List Call) := r.map Prod.snd

/-- The flags `send_packet` passes to `HS6200_Configure`, as a `u8`. -/
def tx_flags (p : Platform) : Nat :=
  (BV p.NRF24L01_00_EN_CRC ||| BV p.NRF24L01_00_CRCO ||| BV p.NRF24L01_00_PWR_UP) % 256

/-- The state in which `send_packet` enters `HS6200_WritePayload`. -/
def before_write (p : Platform) (env : Env) (bind : Nat) (s : State) : State :=
  { s with packet := build_packet p env bind s,
           hs6200_crc := if tx_flags p &&& BV p.NRF24L01_00_EN_CRC ≠ 0 then 1 else 0,
           current_chan :=
             (if bind ≠ 0 then s.current_chan else (s.current_chan + 1) % 256)
               % NUM_RF_CHANNELS }

/-- The state in which `send_packet` reaches its check of the power. -/
def after_write (p : Platform) (env : Env) (bind : Nat) (s : State) : State :=
  { before_write p env bind s with pid := (s.pid + 1) % 256 }

/-- The calls of `send_packet` up to and including the frame. -/
def transmission (p : Platform) (env : Env) (bind : Nat) (s : State) : List Call :=
  [Call.NRF24L01_WriteReg Reg.NRF24L01_00_CONFIG
     ((tx_flags p &&& (0xff ^^^ ((BV p.NRF24L01_00_EN_CRC ||| BV p.NRF24L01_00_CRCO) &&& 0xff)))
       &&& 0xff),
   Call.NRF24L01_WriteReg Reg.NRF24L01_05_RF_CH
     (if bind ≠ 0 then RF_BIND_CHANNEL else s.rf_chans s.current_chan),
   Call.NRF24L01_WriteReg Reg.NRF24L01_07_STATUS 0x70,
   Call.NRF24L01_FlushTx,
   Call.NRF24L01_WritePayload
     (frame (before_write p env bind s) env.stack (build_packet p env bind s))]

/-- A tick that takes the branch `send_packet(1); bind_counter--`. -/
def bind_tick (p : Platform) (env : Env) (s : State) : Option (Nat × State × List Call) :=
  (send_packet p env 1 s).bind (fun r =>
    some (PACKET_PERIOD, { r.1 with bind_counter := (r.1.bind_counter + 65535) % 65536 }, r.2))

/-- A tick that takes the branch of `bind_counter == 0`: the derived address
becomes active, the phase becomes Live and the observer is told, and no packet
is sent. -/
def switch_tick (s : State) : Option (Nat × State × List Call) :=
  some (PACKET_PERIOD, { (HS6200_SetTXAddr s.tx_addr 5 s).1 with phase := Phase.DATA },
    (HS6200_SetTXAddr s.tx_addr 5 s).2 ++ [Call.PROTOCOL_SetBindState 0])

/-- A tick that takes the branch `send_packet(0)`. -/
def live_tick (p : Platform) (env : Env) (s : State) : Option (Nat × State × List Call) :=
  (send_packet p env 0 s).bind (fun r => some (PACKET_PERIOD, r.1, r.2))

/-- One call of `HS6200_WritePayload` in a sequence of calls: the file-scope
variables as the call finds them, the stack under the local buffer, and the
payload. The packet id is not part of it: it is carried from call to call. -/
structure WriteCall where
  codec : State
  stack : Nat → Nat
  msg : List Nat

/-- Successive calls of `HS6200_WritePayload`, starting with packet id `pid`.
Between two calls the program may change every file-scope variable, but not
the static `pid`, which no other function can reach. The result is the packet
id after the last call and the frames handed to the driver, in order. -/
def write_sequence : List WriteCall → Nat → Option (Nat × List (List Nat))
  | [], pid => some (pid, [])
  | w :: ws, pid => do
      let (s1, c) ← HS6200_WritePayload w.stack w.msg w.msg.length { w.codec with pid := pid }
      let (pid1, fs) ← write_sequence ws s1.pid
      pure (pid1, frames c ++ fs)

/-- What the header of the frame of one call is to be, for the packet id
`k mod 4`: two guard bytes equal to the first byte of the active address, the
control byte, and the no-ack bit on top of byte 3. -/
def header_of (w : WriteCall) (k : Nat) (f : List Nat) : Prop :=
  f.getD 0 0 = w.codec.hs6200_tx_addr 0
  ∧ f.getD 1 0 = w.codec.hs6200_tx_addr 0
  ∧ f.getD 2 0 = (w.msg.length <<< 2) ||| (k % 4)
  ∧ (f.getD 3 0).testBit 7 = true

/-- The checksum seed of five address bytes: `crc_update`, eight bits per
byte, from 0xFFFF over the bytes taken last to first. -/
def seed_of (addr : Nat → Nat) : Nat :=
  (List.range 5).foldl (fun crc i => crc_update crc (addr (5 - 1 - i)) 8) 0xffff

/-- The codec is in step with the session: the active address is the bind
address in the Binding phase and the derived address in the Live phase, and
the checksum seed is the one of the active address. -/
def codec_in_step (s : State) : Prop :=
  bytes s.hs6200_tx_addr 5 = (if s.phase = Phase.BIND then bind_address else bytes s.tx_addr 5)
  ∧ s.hs6200_crc_init = seed_of s.hs6200_tx_addr

/-- The scaling of a stick in the words of the spec, to be compared with
`scale_channel`: the channel value is clamped to its declared limits and its
offset from the lower limit is rescaled linearly from the channel range onto
0..0xc8, rounded down. The inverted scaling of the same value, from 0xc8 down
to 0x00, is 0xc8 less this. -/
def direct_scaling (p : Platform) (v : Int) : Nat :=
  (200 * (max p.CHAN_MIN_VALUE (min v p.CHAN_MAX_VALUE) - p.CHAN_MIN_VALUE)
    / (p.CHAN_MAX_VALUE - p.CHAN_MIN_VALUE)).toNat

/-- The flag byte of the live payload in the words of the spec, to be compared
with byte 1 of `build_packet`: 0x01, and on top of it 0x04, 0x10 and 0x40 for
the switch channels 10, 9 and 6 that are in their positive range. -/
def live_flags (env : Env) : Nat :=
  0x01 + (if env.Channels CHANNEL10 > 0 then 0x04 else 0)
    + (if env.Channels CHANNEL9 > 0 then 0x10 else 0)
    + (if env.Channels CHANNEL6 > 0 then 0x40 else 0)

/-- Sticks off centre and two switches on: aileron at -3333, elevator at 2500,
throttle at the lower limit, rudder beyond the upper limit, channel 10 and
channel 6 positive, channel 9 negative. -/
def flying : Env :=
  with_channel (with_channel (with_channel (with_channel (with_channel (with_channel
    (with_channel (bench 4) CHANNEL1 (-3333)) CHANNEL2 2500) CHANNEL3 (-10000)) CHANNEL4 12000)
    CHANNEL10 5000) CHANNEL9 (-5000)) CHANNEL6 1

/-! ## The emulation layer in closed form -/

theorem rd_of_lt {n i : Nat} (a : Nat → Nat) (h : i < n) : rd n a i = some (a i) := by
  simp [rd, h]

theorem wr_of_lt {n i : Nat} (a : Nat → Nat) (v : Nat) (h : i < n) :
    wr n a i v = some (Function.update a i v) := by
  simp [wr, h]

theorem hs6200_scramble_length : hs6200_scramble.length = 15 := rfl

theorem getElem?_msg {msg : List Nat} {j : Nat} (h : j < msg.length) :
    msg[j]? = some (msg.getD j 0) := by
  simp [List.getD, List.getElem?_eq_getElem h]

theorem getElem?_scramble {j : Nat} (h : j < 15) :
    hs6200_scramble[j]? = some (hs6200_scramble.getD j 0) := by
  have h2 : j < hs6200_scramble.length := by rw [hs6200_scramble_length]; exact h
  simp [List.getD, List.getElem?_eq_getElem h2]

/-- The loop of `HS6200_WritePayload` runs to its end within the arrays and
fills one output byte per turn. -/
theorem scramble_loop_eq (msg : List Nat) (hlen : msg.length ≤ 15) :
    ∀ (n i : Nat) (payload : Nat → Nat) (pos : Nat), 1 ≤ i → i + n ≤ msg.length →
      pos + n ≤ 32 →
      scramble_loop msg n i payload pos =
        some (fun j => if pos ≤ j ∧ j < pos + n then straddle msg (i + (j - pos))
                       else payload j, pos + n) := by
  intro n
  induction n with
  | zero =>
      intro i payload pos _ _ _
      simp only [scramble_loop, Nat.add_zero]
      congr 2
      funext j
      have : ¬ (pos ≤ j ∧ j < pos) := by omega
      simp [this]
  | succ n ih =>
      intro i payload pos hi hin hpos
      have h1 : i - 1 < msg.length := by omega
      have h2 : i < msg.length := by omega
      have h3 : i - 1 < 15 := by omega
      have h4 : i < 15 := by omega
      have h5 : pos < 32 := by omega
      simp only [scramble_loop, getElem?_msg h1, getElem?_msg h2, getElem?_scramble h3,
        getElem?_scramble h4, wr_of_lt _ _ h5, Option.bind_eq_bind, Option.some_bind]
      rw [ih (i + 1) _ (pos + 1) (by omega) (by omega) (by omega)]
      congr 2
      · funext j
        by_cases hj : j = pos
        · subst hj
          have : ¬ (j + 1 ≤ j ∧ j < j + 1 + n) := by omega
          simp [this, straddle, scrambled]
        · by_cases hr : pos + 1 ≤ j ∧ j < pos + 1 + n
          · have hr2 : pos ≤ j ∧ j < pos + (n + 1) := by omega
            have e : i + 1 + (j - (pos + 1)) = i + (j - pos) := by omega
            simp [hr, hr2, e]
          · have hr2 : ¬ (pos ≤ j ∧ j < pos + (n + 1)) := by omega
            simp [hr, hr2, Function.update_noteq hj]
      · omega

theorem scramble_payload_eq (s : State) (stack : Nat → Nat) (msg : List Nat)
    (hlen : msg.length ≤ 15) :
    scramble_payload msg msg.length (header s stack msg.length) 3 =
      some (packed_body s stack msg, 3 + msg.length) := by
  unfold scramble_payload
  by_cases h0 : msg.length = 0
  · simp only [h0, gt_iff_lt, lt_self_iff_false, if_false]
    show some _ = some _
    congr 2
    funext j
    simp only [packed_body, header, h0, Function.update_apply]
    by_cases j0 : j = 0
    · subst j0; simp
    by_cases j1 : j = 1
    · subst j1; simp
    by_cases j2 : j = 2
    · subst j2; simp
    by_cases j3 : j = 3
    · subst j3; simp
    have : ¬ j < 2 := by omega
    have h3 : ¬ j < 3 := by omega
    simp [j0, j1, j2, j3, this, h3]
  · have hpos : 0 < msg.length := Nat.pos_of_ne_zero h0
    have hl1 : msg.length - 1 < msg.length := by omega
    have hl2 : msg.length - 1 < 15 := by omega
    have hl3 : 4 + (msg.length - 1) < 32 := by omega
    simp only [gt_iff_lt, hpos, if_true, getElem?_msg hpos, getElem?_scramble (by omega : 0 < 15),
      rd_of_lt _ (by omega : 3 < 32), wr_of_lt _ _ (by omega : 3 < 32), Option.bind_eq_bind,
      Option.some_bind, Nat.reduceAdd,
      scramble_loop_eq msg hlen (msg.length - 1) 1 _ 4 (by omega) (by omega) (by omega),
      getElem?_msg hl1, getElem?_scramble hl2, wr_of_lt _ _ hl3]
    show some _ = some _
    have e : 4 + (msg.length - 1) = 3 + msg.length := by omega
    rw [e]
    congr 2
    funext j
    simp only [packed_body, header, Function.update_apply]
    by_cases j0 : j = 0
    · subst j0
      have : ¬ (0 = 3 + msg.length) := by omega
      simp [this]
    by_cases j1 : j = 1
    · subst j1
      have : ¬ (1 = 3 + msg.length) := by omega
      simp [this]
    by_cases j2 : j = 2
    · subst j2
      have : ¬ (2 = 3 + msg.length) := by omega
      simp [this]
    by_cases j3 : j = 3
    · subst j3
      have : ¬ (3 = 3 + msg.length) := by omega
      simp [this, h0, scrambled]
    by_cases jl : j = 3 + msg.length
    · subst jl
      have a1 : ¬ (3 + msg.length < 2) := by omega
      simp [a1, j2, j3, scrambled]
    by_cases jr : j < 3 + msg.length
    · have a1 : ¬ (j < 2) := by omega
      have a2 : 4 ≤ j ∧ j < 4 + (msg.length - 1) := by omega
      have a3 : 1 + (j - 4) = j - 3 := by omega
      simp [a1, a2, a3, j2, j3, jl, jr]
    · have a1 : ¬ (j < 2) := by omega
      have a2 : ¬ (4 ≤ j ∧ j < 4 + (msg.length - 1)) := by omega
      simp [a1, a2, j0, j1, j2, j3, jl, jr]

/-- The loop of `hs6200_calc_crc` over the working buffer stays within it. -/
theorem calc_crc_loop_eq (payload : Nat → Nat) :
    ∀ (n pos crc : Nat), 2 + pos + n ≤ 32 →
      calc_crc_loop (fun i => rd 32 payload (2 + i)) n pos crc =
        some (pos + n, (List.range n).foldl
          (fun c k => crc_update c (payload (2 + pos + k)) 8) crc) := by
  intro n
  induction n with
  | zero => intro pos crc _; simp [calc_crc_loop]
  | succ n ih =>
      intro pos crc h
      have h1 : 2 + pos < 32 := by omega
      simp only [calc_crc_loop, rd_of_lt _ h1, Option.bind_eq_bind, Option.some_bind]
      rw [ih (pos + 1) _ (by omega)]
      congr 2
      · omega
      · rw [List.range_succ_eq_map, List.foldl_cons, List.foldl_map]
        simp only [Nat.add_zero, Nat.succ_eq_add_one]
        congr 1
        funext c k
        have : 2 + (pos + 1) + k = 2 + pos + (k + 1) := by omega
        rw [this]

theorem hs6200_calc_crc_eq (s : State) (payload : Nat → Nat) (len : Nat) (hlen : len ≤ 15) :
    hs6200_calc_crc s (fun i => rd 32 payload (2 + i)) ((len + 2) % 256) =
      some (crc_value s payload len) := by
  have e : (len + 2) % 256 = len + 2 := Nat.mod_eq_of_lt (by omega)
  have h1 : 2 + (len + 1 + 1) < 32 := by omega
  have h2 : 2 + (len + 1 + 1) = len + 4 := by omega
  simp only [hs6200_calc_crc, e, Nat.add_sub_cancel, Nat.add_one_sub_one,
    calc_crc_loop_eq payload (len + 1) 0 _ (by omega), Option.bind_eq_bind, Option.some_bind,
    Nat.zero_add, gt_iff_lt, Nat.zero_lt_succ, if_true, rd_of_lt _ h1, h2, Nat.add_zero]
  rw [rd_of_lt _ (by omega : len + 4 < 32)]
  rfl

theorem append_crc_eq (s : State) (payload : Nat → Nat) (len pos : Nat) (hlen : len ≤ 15)
    (hpos : pos + 2 < 32) :
    append_crc s len payload pos =
      some (if s.hs6200_crc ≠ 0 then (with_crc (crc_value s payload len) payload pos, pos + 3)
            else (payload, pos)) := by
  unfold append_crc
  by_cases h : s.hs6200_crc ≠ 0
  · simp only [h, if_true, ne_eq, not_false_eq_true, hs6200_calc_crc_eq s payload len hlen,
      Option.bind_eq_bind, Option.some_bind, rd_of_lt _ (by omega : pos < 32),
      wr_of_lt _ _ (by omega : pos < 32), wr_of_lt _ _ (by omega : pos + 1 < 32),
      wr_of_lt _ _ hpos]
    rfl
  · simp only [h, if_false]
    rfl

/-- For every message of at most 15 bytes `HS6200_WritePayload` stays within
its arrays, hands exactly one frame to the driver and advances the packet id. -/
theorem HS6200_WritePayload_eq (s : State) (stack : Nat → Nat) (msg : List Nat)
    (hlen : msg.length ≤ 15) :
    HS6200_WritePayload stack msg msg.length s =
      some ({ s with pid := (s.pid + 1) % 256 },
            [Call.NRF24L01_WritePayload (frame s stack msg)]) := by
  have hh := scramble_payload_eq s stack msg hlen
  unfold header at hh
  simp only [HS6200_WritePayload, wr_of_lt _ _ (by omega : 0 < 32),
    wr_of_lt _ _ (by omega : 1 < 32), wr_of_lt _ _ (by omega : 2 < 32),
    wr_of_lt _ _ (by omega : 3 < 32), Option.bind_eq_bind, Option.some_bind, Nat.and_self,
    Nat.reduceShiftLeft, Nat.reduceMod, Option.pure_def, hh,
    append_crc_eq s _ msg.length (3 + msg.length) hlen (by omega)]
  by_cases h : s.hs6200_crc ≠ 0
  · simp only [h, if_true, ne_eq, not_false_eq_true, frame]
  · simp only [h, if_false, frame]

/-! ## The payload bits of a frame -/

theorem bytes_getElem? (a : Nat → Nat) {n j : Nat} (h : j < n) :
    (bytes a n)[j]? = some (a j) := by
  simp [bytes, List.getElem?_map, List.getElem?_range h]

theorem or_above_seven (a b : Nat) (hb : b < 128) : (a <<< 7) ||| b = 128 * a + b := by
  rw [Nat.shiftLeft_eq, Nat.mul_comm a (2 ^ 7)]
  exact (Nat.mul_add_lt_is_or (by simpa using hb) a).symm

theorem low_seven_first (x : Nat) (hx : x < 256) :
    ((0x80 ||| (x >>> 1)) % 256) % 128 = x >>> 1 := by
  have h := or_above_seven 1 (x >>> 1) (by rw [Nat.shiftRight_eq_div_pow]; omega)
  have e : (1 <<< 7 : Nat) = 0x80 := by decide
  rw [e] at h
  rw [h, Nat.shiftRight_eq_div_pow]
  omega

theorem low_seven_straddle (y x : Nat) (hx : x < 256) :
    (((y <<< 7) ||| (x >>> 1)) % 256) % 128 = x >>> 1 := by
  rw [or_above_seven y (x >>> 1) (by rw [Nat.shiftRight_eq_div_pow]; omega),
    Nat.shiftRight_eq_div_pow]
  omega

theorem top_bit_straddle (x z : Nat) (hz : z < 256) :
    (((x <<< 7) ||| (z >>> 1)) % 256) >>> 7 = x % 2 := by
  rw [or_above_seven x (z >>> 1) (by rw [Nat.shiftRight_eq_div_pow]; omega),
    Nat.shiftRight_eq_div_pow, Nat.shiftRight_eq_div_pow]
  omega

theorem top_bit_last (x w : Nat) (hw : w < 128) :
    ((((x <<< 7) % 256) ||| w) % 256) >>> 7 = x % 2 := by
  have e : (x <<< 7) % 256 = (x % 2) <<< 7 := by
    rw [Nat.shiftLeft_eq, Nat.shiftLeft_eq]
    omega
  rw [e, or_above_seven (x % 2) w hw, Nat.shiftRight_eq_div_pow]
  omega

theorem rejoin_byte (x : Nat) : ((x >>> 1) <<< 1) ||| (x % 2) = x := by
  rw [Nat.shiftLeft_eq, Nat.shiftRight_eq_div_pow, Nat.mul_comm]
  have h := (Nat.mul_add_lt_is_or (i := 1) (b := x % 2) (by omega) (x / 2 ^ 1)).symm
  rw [h]
  omega

theorem hs6200_scramble_lt (i : Nat) : hs6200_scramble.getD i 0 < 256 := by
  by_cases h : i < 15
  · have : ∀ j, j < 15 → hs6200_scramble.getD j 0 < 256 := by decide
    exact this i h
  · have h2 : hs6200_scramble.length ≤ i := by rw [hs6200_scramble_length]; omega
    simp [List.getD, List.getElem?_eq_none h2]

theorem scrambled_lt (msg : List Nat) (hb : ∀ b ∈ msg, b < 256) (i : Nat) :
    scrambled msg i < 256 := by
  have h1 : msg.getD i 0 < 256 := by
    by_cases h : i < msg.length
    · have : msg.getD i 0 = msg[i] := by simp [List.getD, List.getElem?_eq_getElem h]
      rw [this]
      exact hb _ (List.getElem_mem h)
    · simp [List.getD, List.getElem?_eq_none (Nat.le_of_not_lt h)]
  exact Nat.xor_lt_two_pow (n := 8) h1 (hs6200_scramble_lt i)

theorem with_crc_below (crc : Nat) (payload : Nat → Nat) (pos j : Nat) (h : j < pos) :
    with_crc crc payload pos j = payload j := by
  unfold with_crc
  rw [Function.update_noteq (by omega), Function.update_noteq (by omega),
    Function.update_noteq (by omega)]

theorem with_crc_at (crc : Nat) (payload : Nat → Nat) (pos : Nat) :
    with_crc crc payload pos pos = (payload pos ||| (((crc >>> 8) % 256) >>> 1)) % 256 := by
  unfold with_crc
  rw [Function.update_noteq (by omega), Function.update_noteq (by omega),
    Function.update_same]

theorem packed_body_first (s : State) (stack : Nat → Nat) (msg : List Nat)
    (h : 1 ≤ msg.length) :
    packed_body s stack msg 3 = (0x80 ||| (scrambled msg 0 >>> 1)) % 256 := by
  have h0 : msg.length ≠ 0 := by omega
  simp [packed_body, h0]

theorem packed_body_straddle (s : State) (stack : Nat → Nat) (msg : List Nat) (k : Nat)
    (h1 : 1 ≤ k) (h2 : k < msg.length) : packed_body s stack msg (3 + k) = straddle msg k := by
  have a1 : ¬ (3 + k < 2) := by omega
  have a2 : ¬ (3 + k = 2) := by omega
  have a3 : ¬ (3 + k = 3) := by omega
  have a4 : 3 + k < 3 + msg.length := by omega
  simp only [packed_body, a1, a2, a3, a4, if_false, if_true, Nat.add_sub_cancel_left]

theorem packed_body_last (s : State) (stack : Nat → Nat) (msg : List Nat)
    (h : 1 ≤ msg.length) :
    packed_body s stack msg (3 + msg.length) = (scrambled msg (msg.length - 1) <<< 7) % 256 := by
  have a1 : ¬ (3 + msg.length < 2) := by omega
  have a2 : ¬ (3 + msg.length = 2) := by omega
  have a3 : ¬ (3 + msg.length = 3) := by omega
  simp only [packed_body, a1, a2, a3, if_false, if_true, lt_self_iff_false]

/-- With the checksum enabled every payload byte can be read back from the
frame: the byte behind the payload, into which the first checksum bits are
OR-ed, keeps the last payload bit in its top bit. -/
theorem recover_byte_with_checksum (s : State) (stack : Nat → Nat) (msg : List Nat)
    (hcrc : s.hs6200_crc ≠ 0) (hlen : msg.length ≤ 15) (hb : ∀ b ∈ msg, b < 256)
    (i : Nat) (hi : i < msg.length) :
    recover_byte (frame s stack msg) i = some (msg.getD i 0) := by
  have hx := scrambled_lt msg hb i
  have hkey := getElem?_scramble (by omega : i < 15)
  -- the byte holding the high seven bits
  have hhi : (packed_body s stack msg (3 + i)) % 128 = scrambled msg i >>> 1 := by
    by_cases h0 : i = 0
    · subst h0
      rw [packed_body_first s stack msg (by omega)]
      exact low_seven_first _ hx
    · rw [packed_body_straddle s stack msg i (by omega) hi]
      exact low_seven_straddle _ _ hx
  -- the byte holding the low bit
  have hlo : (with_crc (crc_value s (packed_body s stack msg) msg.length)
      (packed_body s stack msg) (3 + msg.length) (4 + i)) >>> 7 = scrambled msg i % 2 := by
    by_cases hl : i + 1 < msg.length
    · rw [with_crc_below _ _ _ _ (by omega)]
      have e : 4 + i = 3 + (i + 1) := by omega
      rw [e, packed_body_straddle s stack msg (i + 1) (by omega) hl]
      exact top_bit_straddle _ _ (scrambled_lt msg hb (i + 1))
    · have e : 4 + i = 3 + msg.length := by omega
      have e2 : msg.length - 1 = i := by omega
      rw [e, with_crc_at, packed_body_last s stack msg (by omega), e2]
      apply top_bit_last
      rw [Nat.shiftRight_eq_div_pow]
      omega
  unfold recover_byte
  unfold frame
  rw [if_pos hcrc, bytes_getElem? _ (by omega : 3 + i < 3 + msg.length + 3),
    bytes_getElem? _ (by omega : 4 + i < 3 + msg.length + 3), hkey]
  simp only [Option.bind_eq_bind, Option.some_bind, Option.pure_def]
  rw [with_crc_below _ _ _ _ (by omega : 3 + i < 3 + msg.length), hhi, hlo, rejoin_byte]
  unfold scrambled
  rw [Nat.xor_cancel_right]

/-- The payload read back from a frame with checksum is the payload encoded. -/
theorem recover_payload_with_checksum (s : State) (stack : Nat → Nat) (msg : List Nat)
    (hcrc : s.hs6200_crc ≠ 0) (hlen : msg.length ≤ 15) (hb : ∀ b ∈ msg, b < 256) :
    recover_payload (frame s stack msg) msg.length = msg.map some := by
  apply List.ext_getElem
  · simp [recover_payload]
  · intro i h1 h2
    have hi : i < msg.length := by simpa using h2
    simp only [recover_payload, List.getElem_map, List.getElem_range]
    rw [recover_byte_with_checksum s stack msg hcrc hlen hb i hi]
    simp [List.getD, List.getElem?_eq_getElem hi]

theorem packed_body_stack (s : State) (stack1 stack2 : Nat → Nat) (msg : List Nat) (j : Nat)
    (h : j ≤ 3 + msg.length ∨ stack1 j = stack2 j) :
    packed_body s stack1 msg j = packed_body s stack2 msg j := by
  unfold packed_body
  split_ifs <;> first | rfl | omega

/-- With the checksum disabled the frame does not depend on what the stack
held. -/
theorem frame_without_checksum_ignores_stack (s : State) (stack1 stack2 : Nat → Nat)
    (msg : List Nat) (hcrc : s.hs6200_crc = 0) :
    frame s stack1 msg = frame s stack2 msg := by
  unfold frame bytes
  simp only [hcrc, ne_eq, not_true_eq_false, if_false]
  apply List.map_congr_left
  intro j hj
  exact packed_body_stack s stack1 stack2 msg j (Or.inl (by have := List.mem_range.mp hj; omega))

theorem crc_fold_stack (s : State) (stack1 stack2 : Nat → Nat) (msg : List Nat) :
    ∀ (n : Nat) (init : Nat), n ≤ msg.length + 1 →
      (List.range n).foldl (fun c k => crc_update c (packed_body s stack1 msg (2 + k)) 8) init
        = (List.range n).foldl
            (fun c k => crc_update c (packed_body s stack2 msg (2 + k)) 8) init := by
  intro n
  induction n with
  | zero => intro init _; simp only [List.range_zero, List.foldl_nil]
  | succ n ih =>
      intro init hn
      rw [List.range_succ, List.foldl_append, List.foldl_append, ih init (by omega)]
      simp only [List.foldl_cons, List.foldl_nil]
      rw [packed_body_stack s stack1 stack2 msg (2 + n) (Or.inl (by omega))]

/-- With the checksum enabled the frame depends on the stack through one byte
only, the byte at index `len + 4` that `hs6200_calc_crc` reads before any store
reaches it. -/
theorem frame_with_checksum_stack (s : State) (stack1 stack2 : Nat → Nat) (msg : List Nat)
    (h : stack1 (msg.length + 4) = stack2 (msg.length + 4)) :
    frame s stack1 msg = frame s stack2 msg := by
  have hbody : ∀ j, j ≤ 3 + msg.length ∨ j = msg.length + 4 →
      packed_body s stack1 msg j = packed_body s stack2 msg j := by
    intro j hj
    apply packed_body_stack
    rcases hj with hj | hj
    · exact Or.inl hj
    · right; rw [hj]; exact h
  have hcrcv : crc_value s (packed_body s stack1 msg) msg.length
      = crc_value s (packed_body s stack2 msg) msg.length := by
    unfold crc_value
    rw [crc_fold_stack s stack1 stack2 msg (msg.length + 1) _ (le_refl _),
      hbody (msg.length + 4) (Or.inr rfl)]
  unfold frame bytes
  split_ifs
  · apply List.map_congr_left
    intro j hj
    have hj2 : j < 3 + msg.length + 3 := List.mem_range.mp hj
    rw [hcrcv]
    unfold with_crc
    simp only [Function.update_apply]
    rw [hbody (3 + msg.length) (Or.inl (le_refl _))]
    split_ifs
    · trivial
    · trivial
    · trivial
    · exact hbody j (Or.inl (by omega))
  · apply List.map_congr_left
    intro j hj
    exact hbody j (Or.inl (by have := List.mem_range.mp hj; omega))

/-! ## Claims on the emulation layer -/

/-- C2, evaluated on the code. Bind address, checksum enabled, packet id 0, a
payload of fifteen zero bytes, and a stack whose byte 19 is 0x80: the frame
carries the checksum 0x68AB, while the reference CRC-16 over the address and
the frame bits is 0x788A. The one-bit update of `hs6200_calc_crc` reads
`msg[pos+1]`, buffer byte 19, which no store has reached yet, and not
`msg[pos]`, buffer byte 18, which holds the last payload bit. Over a stack of
zero bytes, where the stray bit equals the last payload bit, the frame carries
the reference value. -/
theorem checksum_reads_unwritten_byte :
    calls_of (HS6200_WritePayload (fun i => if i = 19 then 0x80 else 0)
        (List.replicate 15 0) 15 (bind_codec 1))
      = some [Call.NRF24L01_WritePayload
          [85, 85, 60, 192, 122, 157, 134, 182, 149, 124, 222, 40, 199, 38, 126, 224, 178,
           232, 52, 85, 128]]
    ∧ packed_checksum
          [85, 85, 60, 192, 122, 157, 134, 182, 149, 124, 222, 40, 199, 38, 126, 224, 178,
           232, 52, 85, 128] 15 = 0x68AB
    ∧ reference_checksum bind_address 0 (List.replicate 15 0) = 0x788A
    ∧ calls_of (HS6200_WritePayload (fun _ => 0) (List.replicate 15 0) 15 (bind_codec 1))
      = some [Call.NRF24L01_WritePayload
          [85, 85, 60, 192, 122, 157, 134, 182, 149, 124, 222, 40, 199, 38, 126, 224, 178,
           232, 60, 69, 0]]
    ∧ packed_checksum
          [85, 85, 60, 192, 122, 157, 134, 182, 149, 124, 222, 40, 199, 38, 126, 224, 178,
           232, 60, 69, 0] 15 = 0x788A := by
  refine ⟨?_, ?_, ?_, ?_, ?_⟩ <;> decide!

/-- C3, counterexample. With the checksum enabled the empty payload gives a
frame of 6 bytes, while ceil((2*8 + 8 + 8 + 0*8 + 16) / 7) is 7. -/
theorem frame_length_not_in_sevens :
    calls_of (HS6200_WritePayload (fun _ => 0) [] 0 (bind_codec 1))
      = some [Call.NRF24L01_WritePayload [85, 85, 0, 188, 209, 128]]
    ∧ [85, 85, 0, 188, 209, 128].length = 6
    ∧ (2 * 8 + 8 + 8 + 0 * 8 + 16 + 6) / 7 = 7 := by
  refine ⟨?_, ?_, ?_⟩ <;> decide

/-- C3, amended. With the checksum enabled, for every payload of length L at
most 15 the frame handed to the driver has L + 6 bytes, which is
ceil((2*8 + 8 + 1 + L*8 + 16) / 8): the no-ack field is one bit wide and every
output byte carries eight bits. -/
theorem frame_length_with_checksum (s : State) (stack : Nat → Nat) (msg : List Nat)
    (hcrc : s.hs6200_crc ≠ 0) (hlen : msg.length ≤ 15) :
    ∃ s1 f, HS6200_WritePayload stack msg msg.length s
        = some (s1, [Call.NRF24L01_WritePayload f])
      ∧ f.length = msg.length + 6
      ∧ f.length = (2 * 8 + 8 + 1 + msg.length * 8 + 16 + 7) / 8 := by
  refine ⟨_, _, HS6200_WritePayload_eq s stack msg hlen, ?_, ?_⟩
  · simp [frame, hcrc, bytes]; omega
  · simp [frame, hcrc, bytes]; omega

theorem frame_length_with_checksum_witness :
    ((bind_codec 1).hs6200_crc ≠ 0 ∧ (List.replicate 15 0).length ≤ 15)
    ∧ ∃ s1 f, HS6200_WritePayload (fun _ => 0) (List.replicate 15 0)
          (List.replicate 15 0).length (bind_codec 1)
        = some (s1, [Call.NRF24L01_WritePayload f])
      ∧ f.length = (List.replicate 15 0).length + 6
      ∧ f.length = (2 * 8 + 8 + 1 + (List.replicate 15 0).length * 8 + 16 + 7) / 8 :=
  ⟨⟨by decide, by decide⟩,
   frame_length_with_checksum (bind_codec 1) (fun _ => 0) (List.replicate 15 0)
     (by decide) (by decide)⟩

/-- C4, evaluated on the code. With the checksum disabled the one-byte payloads
0x00 and 0x01 give the same 4-byte frame: the byte that holds the last payload
bit is stored in the buffer but not counted into the length handed to the
driver, so the frame holds 7 of the 8 payload bits and byte 0 cannot be read
back from it. -/
theorem last_bit_dropped_without_checksum :
    calls_of (HS6200_WritePayload (fun _ => 0) [0x01] 1 (bind_codec 0))
      = some [Call.NRF24L01_WritePayload [85, 85, 4, 192]]
    ∧ calls_of (HS6200_WritePayload (fun _ => 0) [0x00] 1 (bind_codec 0))
      = some [Call.NRF24L01_WritePayload [85, 85, 4, 192]]
    ∧ recover_payload [85, 85, 4, 192] 1 = [none] := by
  refine ⟨?_, ?_, ?_⟩ <;> decide

/-- C5, evaluated on the code. Two calls with the same address, checksum seed,
checksum flag, packet id and payload, the first over a stack of zero bytes and
the second over a stack of 0xff bytes, hand different frames to the driver:
the checksum bytes differ. -/
theorem frame_depends_on_stack :
    calls_of (HS6200_WritePayload (fun _ => 0)
        [0xAA, 0xAA, 0x55, 0, 0, 0, 0, 0, 0, 0, 0, 0, 0, 0, 0] 15 (bind_codec 1))
      = some [Call.NRF24L01_WritePayload
          [85, 85, 60, 149, 47, 183, 6, 182, 149, 124, 222, 40, 199, 38, 126, 224, 178,
           232, 0, 81, 0]]
    ∧ calls_of (HS6200_WritePayload (fun _ => 0xff)
        [0xAA, 0xAA, 0x55, 0, 0, 0, 0, 0, 0, 0, 0, 0, 0, 0, 0] 15 (bind_codec 1))
      = some [Call.NRF24L01_WritePayload
          [85, 85, 60, 149, 47, 183, 6, 182, 149, 124, 222, 40, 199, 38, 126, 224, 178,
           232, 119, 65, 128]] := by
  refine ⟨?_, ?_⟩ <;> decide

/-- C10, counterexample. With the checksum disabled the frame of the bind
marker payload has 18 bytes, while ceil((16 + 8 + 15*8) / 7) is 21. -/
theorem marker_frame_not_in_sevens :
    calls_of (HS6200_WritePayload (fun _ => 0)
        [0xAA, 0xAA, 0x55, 0, 0, 0, 0, 0, 0, 0, 0, 0, 0, 0, 0] 15 (bind_codec 0))
      = some [Call.NRF24L01_WritePayload
          [85, 85, 60, 149, 47, 183, 6, 182, 149, 124, 222, 40, 199, 38, 126, 224, 178, 232]]
    ∧ [85, 85, 60, 149, 47, 183, 6, 182, 149, 124, 222, 40, 199, 38, 126, 224, 178, 232].length
        = 18
    ∧ (16 + 8 + 15 * 8 + 6) / 7 = 21 := by
  refine ⟨?_, ?_, ?_⟩ <;> decide

/-- C10, amended. With the checksum disabled, for every active address, packet
id and stack, the frame of the bind marker payload starts with two bytes equal
to the first byte of the active address, then the control byte and the 15
bytes packed eight bits to the byte behind the one-bit no-ack field, and it is
at most ceil((16 + 8 + 1 + 15*8) / 8) = 19 bytes long. -/
theorem marker_frame_without_checksum (s : State) (stack : Nat → Nat)
    (hcrc : s.hs6200_crc = 0) :
    ∃ s1 f, HS6200_WritePayload stack
          [0xAA, 0xAA, 0x55, 0, 0, 0, 0, 0, 0, 0, 0, 0, 0, 0, 0] 15 s
        = some (s1, [Call.NRF24L01_WritePayload f])
      ∧ f.take 18 =
          [s.hs6200_tx_addr 0, s.hs6200_tx_addr 0, (60 ||| (s.pid &&& 3)) % 256,
           149, 47, 183, 6, 182, 149, 124, 222, 40, 199, 38, 126, 224, 178, 232]
      ∧ 18 ≤ f.length
      ∧ f.length ≤ (16 + 8 + 1 + 15 * 8 + 7) / 8 := by
  refine ⟨_, _, HS6200_WritePayload_eq s stack
    [0xAA, 0xAA, 0x55, 0, 0, 0, 0, 0, 0, 0, 0, 0, 0, 0, 0] (by decide), ?_, ?_, ?_⟩
  · simp [frame, hcrc, bytes, List.range, List.range.loop, packed_body, straddle, scrambled,
      hs6200_scramble]
    rfl
  · simp [frame, hcrc, bytes]
  · simp [frame, hcrc, bytes]

theorem marker_frame_without_checksum_witness :
    (bind_codec 0).hs6200_crc = 0
    ∧ ∃ s1 f, HS6200_WritePayload (fun _ => 0)
          [0xAA, 0xAA, 0x55, 0, 0, 0, 0, 0, 0, 0, 0, 0, 0, 0, 0] 15 (bind_codec 0)
        = some (s1, [Call.NRF24L01_WritePayload f])
      ∧ f.take 18 =
          [(bind_codec 0).hs6200_tx_addr 0, (bind_codec 0).hs6200_tx_addr 0,
           (60 ||| ((bind_codec 0).pid &&& 3)) % 256,
           149, 47, 183, 6, 182, 149, 124, 222, 40, 199, 38, 126, 224, 178, 232]
      ∧ 18 ≤ f.length
      ∧ f.length ≤ (16 + 8 + 1 + 15 * 8 + 7) / 8 :=
  ⟨by decide, marker_frame_without_checksum (bind_codec 0) (fun _ => 0) (by decide)⟩

/-! ## The session state machine in closed form -/

theorem build_packet_length (p : Platform) (env : Env) (bind : Nat) (s : State) :
    (build_packet p env bind s).length = 15 := by
  unfold build_packet
  split <;> rfl

/-- `send_packet` returns whenever it is entered for a bind packet or with the
channel cursor inside the table: one transmission, then the check of the power. -/
theorem send_packet_eq (p : Platform) (env : Env) (bind : Nat) (s : State)
    (h : bind ≠ 0 ∨ s.current_chan < NUM_RF_CHANNELS) :
    send_packet p env bind s =
      some ((adjust_power p env (after_write p env bind s)).1,
            transmission p env bind s ++ (adjust_power p env (after_write p env bind s)).2) := by
  have hw := HS6200_WritePayload_eq (before_write p env bind s) env.stack
    (build_packet p env bind s) (le_of_eq (build_packet_length p env bind s))
  rw [build_packet_length] at hw
  by_cases hb : bind ≠ 0
  · simp only [send_packet, HS6200_Configure, hb, if_true, ne_eq, not_false_eq_true,
      Option.bind_eq_bind, Option.some_bind, Option.pure_def, PACKET_SIZE]
    simp only [before_write, tx_flags, hb, if_true, ne_eq, not_false_eq_true] at hw
    rw [hw]
    simp [after_write, before_write, transmission, tx_flags, hb]
  · have hc : s.current_chan < NUM_RF_CHANNELS := by
      rcases h with h | h
      · exact absurd h hb
      · exact h
    simp only [send_packet, HS6200_Configure, hb, if_false, rd_of_lt _ hc,
      Option.bind_eq_bind, Option.some_bind, Option.pure_def, PACKET_SIZE]
    simp only [before_write, tx_flags, hb, if_false] at hw
    rw [hw]
    simp [after_write, before_write, transmission, tx_flags, hb]

theorem adjust_power_calls (p : Platform) (env : Env) (s : State) :
    (adjust_power p env s).2 = [] ∨
      (adjust_power p env s).2 = [Call.NRF24L01_SetPower (env.Model_tx_power % 256)] := by
  unfold adjust_power
  dsimp only
  split_ifs <;> simp

theorem adjust_power_state (p : Platform) (env : Env) (s : State) :
    ∃ v, (adjust_power p env s).1 = { s with tx_power := v } := by
  unfold adjust_power
  dsimp only
  split_ifs <;> exact ⟨_, rfl⟩

/-- What one `send_packet` leaves of the session: only the packet buffer, the
checksum flag, the packet id, the power and the channel cursor change, and the
one value written to the RF channel register is the bind channel or the table
entry under the cursor. -/
theorem send_packet_session (p : Platform) (env : Env) (bind : Nat) (s : State)
    (h : bind ≠ 0 ∨ s.current_chan < NUM_RF_CHANNELS) :
    ∃ s1 c, send_packet p env bind s = some (s1, c)
      ∧ s1.phase = s.phase ∧ s1.bind_counter = s.bind_counter
      ∧ s1.rf_chans = s.rf_chans ∧ s1.tx_addr = s.tx_addr
      ∧ s1.current_chan =
          (if bind ≠ 0 then s.current_chan else (s.current_chan + 1) % 256) % NUM_RF_CHANNELS
      ∧ rf_channels c = [if bind ≠ 0 then RF_BIND_CHANNEL else s.rf_chans s.current_chan]
      ∧ c.count (Call.PROTOCOL_SetBindState 0) = 0 := by
  obtain ⟨v, hv⟩ := adjust_power_state p env (after_write p env bind s)
  refine ⟨_, _, send_packet_eq p env bind s h, ?_, ?_, ?_, ?_, ?_, ?_, ?_⟩
  · rw [hv]; rfl
  · rw [hv]; rfl
  · rw [hv]; rfl
  · rw [hv]; rfl
  · rw [hv]; rfl
  · rcases adjust_power_calls p env (after_write p env bind s) with e | e <;>
      rw [e] <;> simp [rf_channels, transmission]
  · rcases adjust_power_calls p env (after_write p env bind s) with e | e <;>
      rw [e] <;> simp [transmission]

/-- The session as `initialize` leaves it, whatever it was before: Binding,
countdown at `BIND_COUNT`, cursor at 0. -/
theorem initialize_session (p : Platform) (env : Env) (s : State) :
    (initialize_protocol p env s).1.phase = Phase.BIND
      ∧ (initialize_protocol p env s).1.bind_counter = BIND_COUNT p
      ∧ (initialize_protocol p env s).1.current_chan = 0 := by
  refine ⟨rfl, ?_, rfl⟩
  show BIND_COUNT p % 65536 = BIND_COUNT p
  unfold BIND_COUNT
  split <;> rfl

theorem e012_callback_bind_send (p : Platform) (env : Env) (s : State)
    (hp : s.phase = Phase.BIND) (hc : s.bind_counter ≠ 0) :
    e012_callback p env s = bind_tick p env s := by
  unfold e012_callback bind_tick
  rw [hp]
  simp only [hc, if_false]
  cases send_packet p env 1 s <;> rfl

theorem e012_callback_bind_zero (p : Platform) (env : Env) (s : State)
    (hp : s.phase = Phase.BIND) (hc : s.bind_counter = 0) :
    e012_callback p env s = switch_tick s := by
  unfold e012_callback switch_tick
  rw [hp]
  simp only [hc, if_true]

theorem e012_callback_data (p : Platform) (env : Env) (s : State)
    (hp : s.phase = Phase.DATA) :
    e012_callback p env s = live_tick p env s := by
  unfold e012_callback live_tick
  rw [hp]
  cases send_packet p env 0 s <;> rfl

theorem rf_channels_append (a b : List Call) :
    rf_channels (a ++ b) = rf_channels a ++ rf_channels b := by
  simp [rf_channels, List.filterMap_append]

theorem ticks_cons (p : Platform) (env : Env) (envs : List Env) (s s1 s2 : State)
    (period : Nat) (c cs : List Call)
    (h1 : e012_callback p env s = some (period, s1, c))
    (h2 : ticks p envs s1 = some (s2, cs)) :
    ticks p (env :: envs) s = some (s2, c ++ cs) := by
  simp [ticks, h1, h2]

/-- A run extended by one tick is the run followed by that tick. -/
theorem ticks_snoc (p : Platform) (env : Env) :
    ∀ (envs : List Env) (s : State),
      ticks p (envs ++ [env]) s =
        (ticks p envs s).bind (fun r =>
          (e012_callback p env r.1).bind (fun t => some (t.2.1, r.2 ++ t.2.2))) := by
  intro envs
  induction envs with
  | nil =>
      intro s
      simp only [List.nil_append, ticks, Option.bind_eq_bind, Option.some_bind, List.nil_append]
      cases e012_callback p env s with
      | none => rfl
      | some t => simp
  | cons e envs ih =>
      intro s
      simp only [List.cons_append, ticks, Option.bind_eq_bind]
      cases e012_callback p e s with
      | none => rfl
      | some t =>
          simp only [Option.some_bind]
          have e : envs.append [env] = envs ++ [env] := rfl
          rw [e, ih t.2.1]
          cases ticks p envs t.2.1 with
          | none => rfl
          | some r =>
              simp only [Option.some_bind, Option.pure_def]
              cases e012_callback p env r.1 with
              | none => rfl
              | some u => simp [List.append_assoc]

/-- In the Live phase every tick returns, the phase and the countdown stay,
and the channel written is the table entry under a cursor that steps through
the four entries in order. -/
theorem ticks_live (p : Platform) :
    ∀ (envs : List Env) (s : State), s.phase = Phase.DATA →
      s.current_chan < NUM_RF_CHANNELS →
      ∃ s1 c, ticks p envs s = some (s1, c)
        ∧ s1.phase = Phase.DATA ∧ s1.bind_counter = s.bind_counter
        ∧ s1.rf_chans = s.rf_chans ∧ s1.tx_addr = s.tx_addr
        ∧ s1.current_chan = (s.current_chan + envs.length) % NUM_RF_CHANNELS
        ∧ rf_channels c = (List.range envs.length).map
            (fun k => s.rf_chans ((s.current_chan + k) % NUM_RF_CHANNELS))
        ∧ c.count (Call.PROTOCOL_SetBindState 0) = 0 := by
  intro envs
  induction envs with
  | nil =>
      intro s hp hc
      refine ⟨s, [], rfl, hp, rfl, rfl, rfl, ?_, rfl, rfl⟩
      simp only [List.length_nil, Nat.add_zero]
      exact (Nat.mod_eq_of_lt hc).symm
  | cons env envs ih =>
      intro s hp hc
      obtain ⟨s1, c, hs, h1, h2, h3, h4, h5, h6, h7⟩ :=
        send_packet_session p env 0 s (Or.inr hc)
      simp only [ne_eq, not_true_eq_false, if_false] at h5 h6
      have hc1 : s1.current_chan < NUM_RF_CHANNELS := by
        rw [h5]; exact Nat.mod_lt _ (by decide)
      obtain ⟨s2, cs, ht, g1, g2, g3, g4, g5, g6, g7⟩ := ih s1 (h1.trans hp) hc1
      have hcb : e012_callback p env s = some (PACKET_PERIOD, s1, c) := by
        rw [e012_callback_data p env s hp, live_tick, hs]; rfl
      refine ⟨s2, c ++ cs, ticks_cons p env envs s s1 s2 _ c cs hcb ht, g1, g2.trans h2,
        g3.trans h3, g4.trans h4, ?_, ?_, ?_⟩
      · rw [g5, h5]
        simp only [NUM_RF_CHANNELS, List.length_cons] at hc ⊢
        omega
      · rw [rf_channels_append, h6, g6, List.length_cons, List.range_succ_eq_map, List.map_cons,
          List.map_map, h3, h5]
        simp only [NUM_RF_CHANNELS] at hc ⊢
        simp only [Nat.add_zero, Nat.mod_eq_of_lt hc, List.singleton_append, List.cons.injEq,
          true_and]
        apply List.map_congr_left
        intro k _
        simp only [Function.comp, Nat.succ_eq_add_one]
        congr 1
        omega
      · rw [List.count_append, h7, g7]

/-- From a Binding state with the cursor at 0: every tick returns; the
countdown falls by one per tick down to zero; the tick that finds it at zero
switches to Live and tells the observer; the ticks before it write the bind
channel and those after it walk the channel table. -/
theorem ticks_bind (p : Platform) :
    ∀ (envs : List Env) (s : State), s.phase = Phase.BIND → s.current_chan = 0 →
      s.bind_counter < 65536 →
      ∃ s1 c, ticks p envs s = some (s1, c)
        ∧ s1.bind_counter = s.bind_counter - envs.length
        ∧ s1.phase = (if envs.length ≤ s.bind_counter then Phase.BIND else Phase.DATA)
        ∧ s1.rf_chans = s.rf_chans ∧ s1.tx_addr = s.tx_addr
        ∧ s1.current_chan = (envs.length - (s.bind_counter + 1)) % NUM_RF_CHANNELS
        ∧ rf_channels c =
            List.replicate (min s.bind_counter envs.length) RF_BIND_CHANNEL
              ++ (List.range (envs.length - (s.bind_counter + 1))).map
                  (fun k => s.rf_chans (k % NUM_RF_CHANNELS))
        ∧ c.count (Call.PROTOCOL_SetBindState 0)
            = (if s.bind_counter < envs.length then 1 else 0) := by
  intro envs
  induction envs with
  | nil =>
      intro s hp hc _
      refine ⟨s, [], rfl, rfl, ?_, rfl, rfl, ?_, ?_, ?_⟩
      · simp [hp]
      · simp [hc]
      · simp [rf_channels]
      · simp
  | cons env envs ih =>
      intro s hp hc hb
      by_cases h0 : s.bind_counter = 0
      · -- the switch to the Live phase
        have hcb := e012_callback_bind_zero p env s hp h0
        unfold switch_tick at hcb
        obtain ⟨s2, cs, ht, g1, g2, g3, g4, g5, g6, g7⟩ :=
          ticks_live p envs { (HS6200_SetTXAddr s.tx_addr 5 s).1 with phase := Phase.DATA } rfl
            (by show s.current_chan < NUM_RF_CHANNELS; rw [hc]; decide)
        refine ⟨s2, _, ticks_cons p env envs s _ s2 _ _ cs hcb ht, ?_, ?_, ?_, ?_, ?_, ?_, ?_⟩
        · rw [g2]; show s.bind_counter = _; omega
        · rw [g1, h0]; simp
        · rw [g3]; rfl
        · rw [g4]; rfl
        · rw [g5, h0]
          show (s.current_chan + envs.length) % NUM_RF_CHANNELS = _
          rw [hc]; simp
        · rw [rf_channels_append, g6, h0]
          show rf_channels ((HS6200_SetTXAddr s.tx_addr 5 s).2 ++ _) ++
            List.map (fun k => s.rf_chans ((s.current_chan + k) % NUM_RF_CHANNELS)) _ = _
          rw [hc]
          simp [rf_channels, HS6200_SetTXAddr]
        · rw [List.count_append, g7, h0]
          simp [HS6200_SetTXAddr]
      · -- a bind packet
        obtain ⟨s1, c, hs, h1, h2, h3, h4, h5, h6, h7⟩ :=
          send_packet_session p env 1 s (Or.inl (by decide))
        simp only [ne_eq, one_ne_zero, not_false_eq_true, if_true] at h5 h6
        have hcb : e012_callback p env s = some (PACKET_PERIOD,
            { s1 with bind_counter := (s1.bind_counter + 65535) % 65536 }, c) := by
          rw [e012_callback_bind_send p env s hp h0, bind_tick, hs]; rfl
        have hdec : (s1.bind_counter + 65535) % 65536 = s.bind_counter - 1 := by
          rw [h2]; omega
        obtain ⟨s2, cs, ht, g1, g2, g3, g4, g5, g6, g7⟩ :=
          ih { s1 with bind_counter := (s1.bind_counter + 65535) % 65536 } (h1.trans hp)
            (by show s1.current_chan = 0; rw [h5, hc]; rfl)
            (Nat.mod_lt _ (by decide))
        simp only [hdec] at g1 g2 g5 g6 g7
        refine ⟨s2, c ++ cs, ticks_cons p env envs s _ s2 _ c cs hcb ht, ?_, ?_, ?_, ?_, ?_, ?_, ?_⟩
        · rw [g1, List.length_cons]; omega
        · rw [g2, List.length_cons]
          by_cases hle : envs.length ≤ s.bind_counter - 1
          · have : envs.length + 1 ≤ s.bind_counter := by omega
            simp [hle, this]
          · have : ¬ envs.length + 1 ≤ s.bind_counter := by omega
            simp [hle, this]
        · rw [g3]; exact h3
        · rw [g4]; exact h4
        · rw [g5, List.length_cons]
          have : envs.length - (s.bind_counter - 1 + 1) = envs.length + 1 - (s.bind_counter + 1) := by
            omega
          rw [this]
        · rw [rf_channels_append, h6, g6, List.length_cons]
          have e1 : envs.length - (s.bind_counter - 1 + 1) = envs.length + 1 - (s.bind_counter + 1) := by
            omega
          have e2 : min s.bind_counter (envs.length + 1) = min (s.bind_counter - 1) envs.length + 1 := by
            omega
          rw [e1, e2, List.replicate_succ, h3]
          rfl
        · rw [List.count_append, h7, g7, List.length_cons]
          by_cases hlt : s.bind_counter - 1 < envs.length
          · have : s.bind_counter < envs.length + 1 := by omega
            simp [hlt, this]
          · have : ¬ s.bind_counter < envs.length + 1 := by omega
            simp [hlt, this]

/-! ## Claims on the session state machine -/

/-- C1, evaluated on the code. With the ceiling TXPOWER_10mW = 4 and a
configured power of 5, `initialize` programs power 5 (the call in `e012_init`
passes `Model.tx_power` itself), and each of the next two ticks programs power
5 again: `send_packet` clamps the stored `tx_power`, finds it different from
`Model.tx_power`, and then stores and programs `Model.tx_power` unclamped. -/
theorem power_programmed_above_ceiling :
    hardware.TXPOWER_10mW = 4
    ∧ powers (initialize_protocol hardware (bench 5) State.zero).2 = [5]
    ∧ (ticks hardware [bench 5, bench 5] (initialize_protocol hardware (bench 5) State.zero).1).map
        (fun r => powers r.2) = some [5, 5] := by
  refine ⟨?_, ?_, ?_⟩ <;> decide!

theorem bind_tick_isSome (p : Platform) (env : Env) (s : State) :
    (bind_tick p env s).isSome = true := by
  unfold bind_tick
  rw [send_packet_eq p env 1 s (Or.inl (by decide))]
  rfl

theorem live_tick_isSome (p : Platform) (env : Env) (s : State)
    (h : s.current_chan < NUM_RF_CHANNELS) : (live_tick p env s).isSome = true := by
  unfold live_tick
  rw [send_packet_eq p env 0 s (Or.inr h)]
  rfl

/-- C6. After `initialize`, whatever the state before it and whatever the
environment of each tick, every run of ticks returns; after m ticks the
countdown is `BIND_COUNT - m` cut off at zero, so it never increases and never
wraps; the phase is Binding up to and including tick `BIND_COUNT` and Live
after it; `PROTOCOL_SetBindState(0)` has been called once when m exceeds
`BIND_COUNT` and not at all before; and the next tick, which extends the run
by one, returns, sends a bind packet and counts down when m is below
`BIND_COUNT`, switches to Live without sending when m equals it, and sends a
live packet after that. -/
theorem bind_countdown (p : Platform) (env0 : Env) (s : State) (envs : List Env) (env : Env) :
    ∃ s1 c, ticks p envs (initialize_protocol p env0 s).1 = some (s1, c)
      ∧ s1.bind_counter = BIND_COUNT p - envs.length
      ∧ s1.phase = (if envs.length ≤ BIND_COUNT p then Phase.BIND else Phase.DATA)
      ∧ c.count (Call.PROTOCOL_SetBindState 0) = (if BIND_COUNT p < envs.length then 1 else 0)
      ∧ e012_callback p env s1 =
          (if envs.length < BIND_COUNT p then bind_tick p env s1
           else if envs.length = BIND_COUNT p then switch_tick s1
           else live_tick p env s1)
      ∧ (e012_callback p env s1).isSome = true
      ∧ ticks p (envs ++ [env]) (initialize_protocol p env0 s).1 =
          (e012_callback p env s1).bind (fun t => some (t.2.1, c ++ t.2.2)) := by
  obtain ⟨hp, hb, hc⟩ := initialize_session p env0 s
  have hN : BIND_COUNT p < 65536 := by unfold BIND_COUNT; split <;> decide
  obtain ⟨s1, c, ht, g1, g2, g3, g4, g5, g6, g7⟩ :=
    ticks_bind p envs (initialize_protocol p env0 s).1 hp hc (by rw [hb]; exact hN)
  rw [hb] at g1 g2 g5 g6 g7
  have hcur : s1.current_chan < NUM_RF_CHANNELS := by
    rw [g5]; exact Nat.mod_lt _ (by decide)
  have heq : e012_callback p env s1 =
      (if envs.length < BIND_COUNT p then bind_tick p env s1
       else if envs.length = BIND_COUNT p then switch_tick s1
       else live_tick p env s1) := by
    by_cases h1 : envs.length < BIND_COUNT p
    · have hle : envs.length ≤ BIND_COUNT p := by omega
      rw [if_pos hle] at g2
      rw [if_pos h1]
      exact e012_callback_bind_send p env s1 g2 (by rw [g1]; omega)
    · by_cases h2 : envs.length = BIND_COUNT p
      · have hle : envs.length ≤ BIND_COUNT p := by omega
        rw [if_pos hle] at g2
        rw [if_neg h1, if_pos h2]
        exact e012_callback_bind_zero p env s1 g2 (by rw [g1]; omega)
      · have hle : ¬ envs.length ≤ BIND_COUNT p := by omega
        rw [if_neg hle] at g2
        rw [if_neg h1, if_neg h2]
        exact e012_callback_data p env s1 g2
  refine ⟨s1, c, ht, g1, g2, g7, heq, ?_, ?_⟩
  · rw [heq]
    split_ifs
    · exact bind_tick_isSome p env s1
    · rfl
    · exact live_tick_isSome p env s1 hcur
  · rw [ticks_snoc, ht]
    rfl

/-- C7. After `initialize`, whatever the state before it and whatever the
environment of each tick, every run of ticks returns with the cursor below
`NUM_RF_CHANNELS`; after m ticks the cursor is the number of Live ticks so far,
`m - (BIND_COUNT + 1)` cut off at zero, modulo 4, hence 0 up to the switch to
Live; the channel table is the one `initialize` derived; and the values written
to the RF channel register are the bind channel once per bind tick, then
`rf_chans[k mod 4]` for the k-th Live tick, k counted from 0. -/
theorem channel_cursor (p : Platform) (env0 : Env) (s : State) (envs : List Env) :
    ∃ s1 c, ticks p envs (initialize_protocol p env0 s).1 = some (s1, c)
      ∧ s1.current_chan < NUM_RF_CHANNELS
      ∧ s1.current_chan = (envs.length - (BIND_COUNT p + 1)) % NUM_RF_CHANNELS
      ∧ s1.rf_chans = (initialize_protocol p env0 s).1.rf_chans
      ∧ rf_channels c =
          List.replicate (min (BIND_COUNT p) envs.length) RF_BIND_CHANNEL
            ++ (List.range (envs.length - (BIND_COUNT p + 1))).map
                (fun k => (initialize_protocol p env0 s).1.rf_chans (k % NUM_RF_CHANNELS)) := by
  obtain ⟨hp, hb, hc⟩ := initialize_session p env0 s
  have hN : BIND_COUNT p < 65536 := by unfold BIND_COUNT; split <;> decide
  obtain ⟨s1, c, ht, g1, g2, g3, g4, g5, g6, g7⟩ :=
    ticks_bind p envs (initialize_protocol p env0 s).1 hp hc (by rw [hb]; exact hN)
  rw [hb] at g5 g6
  exact ⟨s1, c, ht, by rw [g5]; exact Nat.mod_lt _ (by decide), g5, g3, g6⟩

/-! ## Claims on scaling and identity derivation -/

theorem s32_eq (x : Int) (h1 : -2147483648 ≤ x) (h2 : x < 2147483648) : s32 x = x := by
  unfold s32
  omega

/-- The channel value after the clamp of `scale_channel`. -/
theorem scale_channel_eq (p : Platform) (env : Env) (ch destMin destMax : Nat) :
    scale_channel p env ch destMin destMax =
      (s32 (Int.tdiv (s32 (s32 ((destMax : Int) - (destMin : Int)) *
          s32 ((if env.Channels ch < p.CHAN_MIN_VALUE then p.CHAN_MIN_VALUE
                else if env.Channels ch > p.CHAN_MAX_VALUE then p.CHAN_MAX_VALUE
                else env.Channels ch) - p.CHAN_MIN_VALUE))) (CHAN_RANGE p)
        + (destMin : Int)) % 65536).toNat := rfl

/-- At or below the lower limit the two scalings of `send_packet` give their
`destMin`. -/
theorem scale_channel_low (p : Platform) (env : Env) (ch : Nat)
    (hlt : p.CHAN_MIN_VALUE < p.CHAN_MAX_VALUE)
    (hov : 200 * (p.CHAN_MAX_VALUE - p.CHAN_MIN_VALUE) < 2147483648)
    (hv : env.Channels ch ≤ p.CHAN_MIN_VALUE) :
    scale_channel p env ch 0x00 0xc8 = 0x00 ∧ scale_channel p env ch 0xc8 0x00 = 0xc8 := by
  have hc : (if env.Channels ch < p.CHAN_MIN_VALUE then p.CHAN_MIN_VALUE
      else if env.Channels ch > p.CHAN_MAX_VALUE then p.CHAN_MAX_VALUE
      else env.Channels ch) = p.CHAN_MIN_VALUE := by
    split_ifs <;> omega
  have hr : CHAN_RANGE p = p.CHAN_MAX_VALUE - p.CHAN_MIN_VALUE :=
    s32_eq _ (by omega) (by omega)
  constructor
  · rw [scale_channel_eq, hc, hr]
    simp [s32]
  · rw [scale_channel_eq, hc, hr]
    simp [s32]

/-- At or above the upper limit the two scalings of `send_packet` give their
`destMax`. -/
theorem scale_channel_high (p : Platform) (env : Env) (ch : Nat)
    (hlt : p.CHAN_MIN_VALUE < p.CHAN_MAX_VALUE)
    (hov : 200 * (p.CHAN_MAX_VALUE - p.CHAN_MIN_VALUE) < 2147483648)
    (hv : p.CHAN_MAX_VALUE ≤ env.Channels ch) :
    scale_channel p env ch 0x00 0xc8 = 0xc8 ∧ scale_channel p env ch 0xc8 0x00 = 0x00 := by
  have hc : (if env.Channels ch < p.CHAN_MIN_VALUE then p.CHAN_MIN_VALUE
      else if env.Channels ch > p.CHAN_MAX_VALUE then p.CHAN_MAX_VALUE
      else env.Channels ch) = p.CHAN_MAX_VALUE := by
    split_ifs <;> omega
  have hr : CHAN_RANGE p = p.CHAN_MAX_VALUE - p.CHAN_MIN_VALUE :=
    s32_eq _ (by omega) (by omega)
  have hne : p.CHAN_MAX_VALUE - p.CHAN_MIN_VALUE ≠ 0 := by omega
  have hd : s32 (p.CHAN_MAX_VALUE - p.CHAN_MIN_VALUE) = p.CHAN_MAX_VALUE - p.CHAN_MIN_VALUE :=
    s32_eq _ (by omega) (by omega)
  constructor
  · rw [scale_channel_eq, hc, hr, hd]
    have e1 : s32 (((0xc8 : Nat) : Int) - ((0x00 : Nat) : Int)) = 200 := by decide
    have e2 : s32 (200 * (p.CHAN_MAX_VALUE - p.CHAN_MIN_VALUE))
        = 200 * (p.CHAN_MAX_VALUE - p.CHAN_MIN_VALUE) := s32_eq _ (by omega) (by omega)
    rw [e1, e2, Int.mul_tdiv_cancel _ hne]
    decide
  · rw [scale_channel_eq, hc, hr, hd]
    have e1 : s32 (((0x00 : Nat) : Int) - ((0xc8 : Nat) : Int)) = -200 := by decide
    have e2 : s32 (-200 * (p.CHAN_MAX_VALUE - p.CHAN_MIN_VALUE))
        = -200 * (p.CHAN_MAX_VALUE - p.CHAN_MIN_VALUE) := s32_eq _ (by omega) (by omega)
    rw [e1, e2, Int.mul_tdiv_cancel _ hne]
    decide

theorem with_channel_apply (env : Env) (ch : Nat) (v : Int) :
    (with_channel env ch v).Channels ch = v := by
  simp [with_channel]

/-- C8. With `CHAN_MIN_VALUE < CHAN_MAX_VALUE` and the product of 200 and the
channel range inside `s32`, for every channel, every value `lo` below the lower
limit and every value `hi` above the upper limit: the direct scaling
(0x00 to 0xc8) and the inverted scaling (0xc8 to 0x00) of `lo` equal those of
`CHAN_MIN_VALUE` and are their `destMin`, and the scalings of `hi` equal those
of `CHAN_MAX_VALUE` and are their `destMax`. -/
theorem scale_channel_clamps (p : Platform) (env : Env) (ch : Nat) (lo hi : Int)
    (hlt : p.CHAN_MIN_VALUE < p.CHAN_MAX_VALUE)
    (hov : 200 * (p.CHAN_MAX_VALUE - p.CHAN_MIN_VALUE) < 2147483648)
    (hlo : lo < p.CHAN_MIN_VALUE) (hhi : p.CHAN_MAX_VALUE < hi) :
    (scale_channel p (with_channel env ch lo) ch 0x00 0xc8
        = scale_channel p (with_channel env ch p.CHAN_MIN_VALUE) ch 0x00 0xc8
      ∧ scale_channel p (with_channel env ch lo) ch 0x00 0xc8 = 0x00)
    ∧ (scale_channel p (with_channel env ch lo) ch 0xc8 0x00
        = scale_channel p (with_channel env ch p.CHAN_MIN_VALUE) ch 0xc8 0x00
      ∧ scale_channel p (with_channel env ch lo) ch 0xc8 0x00 = 0xc8)
    ∧ (scale_channel p (with_channel env ch hi) ch 0x00 0xc8
        = scale_channel p (with_channel env ch p.CHAN_MAX_VALUE) ch 0x00 0xc8
      ∧ scale_channel p (with_channel env ch hi) ch 0x00 0xc8 = 0xc8)
    ∧ (scale_channel p (with_channel env ch hi) ch 0xc8 0x00
        = scale_channel p (with_channel env ch p.CHAN_MAX_VALUE) ch 0xc8 0x00
      ∧ scale_channel p (with_channel env ch hi) ch 0xc8 0x00 = 0x00) := by
  have a := scale_channel_low p (with_channel env ch lo) ch hlt hov
    (by rw [with_channel_apply]; omega)
  have b := scale_channel_low p (with_channel env ch p.CHAN_MIN_VALUE) ch hlt hov
    (by rw [with_channel_apply])
  have c := scale_channel_high p (with_channel env ch hi) ch hlt hov
    (by rw [with_channel_apply]; omega)
  have d := scale_channel_high p (with_channel env ch p.CHAN_MAX_VALUE) ch hlt hov
    (by rw [with_channel_apply])
  exact ⟨⟨a.1.trans b.1.symm, a.1⟩, ⟨a.2.trans b.2.symm, a.2⟩, ⟨c.1.trans d.1.symm, c.1⟩,
    ⟨c.2.trans d.2.symm, c.2⟩⟩

theorem scale_channel_clamps_witness :
    (hardware.CHAN_MIN_VALUE < hardware.CHAN_MAX_VALUE
      ∧ 200 * (hardware.CHAN_MAX_VALUE - hardware.CHAN_MIN_VALUE) < 2147483648
      ∧ (-12345 : Int) < hardware.CHAN_MIN_VALUE ∧ hardware.CHAN_MAX_VALUE < (23456 : Int))
    ∧ ((scale_channel hardware (with_channel (bench 4) CHANNEL1 (-12345)) CHANNEL1 0x00 0xc8
        = scale_channel hardware (with_channel (bench 4) CHANNEL1 hardware.CHAN_MIN_VALUE)
            CHANNEL1 0x00 0xc8
      ∧ scale_channel hardware (with_channel (bench 4) CHANNEL1 (-12345)) CHANNEL1 0x00 0xc8
          = 0x00)
    ∧ (scale_channel hardware (with_channel (bench 4) CHANNEL1 (-12345)) CHANNEL1 0xc8 0x00
        = scale_channel hardware (with_channel (bench 4) CHANNEL1 hardware.CHAN_MIN_VALUE)
            CHANNEL1 0xc8 0x00
      ∧ scale_channel hardware (with_channel (bench 4) CHANNEL1 (-12345)) CHANNEL1 0xc8 0x00
          = 0xc8)
    ∧ (scale_channel hardware (with_channel (bench 4) CHANNEL1 23456) CHANNEL1 0x00 0xc8
        = scale_channel hardware (with_channel (bench 4) CHANNEL1 hardware.CHAN_MAX_VALUE)
            CHANNEL1 0x00 0xc8
      ∧ scale_channel hardware (with_channel (bench 4) CHANNEL1 23456) CHANNEL1 0x00 0xc8
          = 0xc8)
    ∧ (scale_channel hardware (with_channel (bench 4) CHANNEL1 23456) CHANNEL1 0xc8 0x00
        = scale_channel hardware (with_channel (bench 4) CHANNEL1 hardware.CHAN_MAX_VALUE)
            CHANNEL1 0xc8 0x00
      ∧ scale_channel hardware (with_channel (bench 4) CHANNEL1 23456) CHANNEL1 0xc8 0x00
          = 0x00)) :=
  ⟨⟨by decide, by decide, by decide, by decide⟩,
   scale_channel_clamps hardware (bench 4) CHANNEL1 (-12345) 23456
     (by decide) (by decide) (by decide) (by decide)⟩

/-- C9. Two runs of `initialize_txid` that see the same twelve serial number
bytes and the same `Model.fixed_id` leave the same five bytes in `tx_addr` and
the same four bytes in `rf_chans`, whatever the two states before the runs and
whatever else the two environments hold; `rand32_r` is the function of state
and byte of the platform. -/
theorem initialize_txid_deterministic (p : Platform) (env1 env2 : Env) (s1 s2 : State)
    (hserial : ∀ i, i < 12 → env1.serial i = env2.serial i)
    (hid : env1.Model_fixed_id = env2.Model_fixed_id) :
    bytes (initialize_txid p env1 s1).1.tx_addr ADDRESS_LENGTH
        = bytes (initialize_txid p env2 s2).1.tx_addr ADDRESS_LENGTH
    ∧ bytes (initialize_txid p env1 s1).1.rf_chans NUM_RF_CHANNELS
        = bytes (initialize_txid p env2 s2).1.rf_chans NUM_RF_CHANNELS := by
  have hs : bytes env1.serial 12 = bytes env2.serial 12 := by
    unfold bytes
    apply List.map_congr_left
    intro i hi
    exact hserial i (List.mem_range.mp hi)
  constructor
  · unfold bytes
    apply List.map_congr_left
    intro i hi
    have h5 : i < 5 := List.mem_range.mp hi
    simp only [initialize_txid, memcpy, h5, if_true, hs, hid]
  · unfold bytes
    apply List.map_congr_left
    intro i hi
    have h4 : i < NUM_RF_CHANNELS := List.mem_range.mp hi
    simp only [initialize_txid, memcpy, h4, if_true, hs, hid]

theorem initialize_txid_deterministic_witness :
    ((∀ i, i < 12 → (bench 3).serial i = (bench 5).serial i)
      ∧ (bench 3).Model_fixed_id = (bench 5).Model_fixed_id)
    ∧ (bytes (initialize_txid hardware (bench 3) State.zero).1.tx_addr ADDRESS_LENGTH
        = bytes (initialize_txid hardware (bench 5)
            (initialize_protocol emulator (bench 5) State.zero).1).1.tx_addr ADDRESS_LENGTH
      ∧ bytes (initialize_txid hardware (bench 3) State.zero).1.rf_chans NUM_RF_CHANNELS
        = bytes (initialize_txid hardware (bench 5)
            (initialize_protocol emulator (bench 5) State.zero).1).1.rf_chans NUM_RF_CHANNELS) :=
  ⟨⟨fun _ _ => rfl, rfl⟩,
   initialize_txid_deterministic hardware (bench 3) (bench 5) State.zero
     (initialize_protocol emulator (bench 5) State.zero).1 (fun _ _ => rfl) rfl⟩

/-! ## Claims on bounds, header and bit layout of a frame -/

theorem bytes_getD (a : Nat → Nat) {n j : Nat} (h : j < n) : (bytes a n).getD j 0 = a j := by
  simp [List.getD, bytes_getElem? a h]

theorem frame_length (s : State) (stack : Nat → Nat) (msg : List Nat) :
    (frame s stack msg).length = msg.length + (if s.hs6200_crc ≠ 0 then 6 else 3) := by
  unfold frame bytes
  split_ifs <;> simp <;> omega

/-- Byte `j` of a frame below the checksum is byte `j` of the packed body. -/
theorem frame_getD_body (s : State) (stack : Nat → Nat) (msg : List Nat) (j : Nat)
    (h : j < 3 + msg.length) : (frame s stack msg).getD j 0 = packed_body s stack msg j := by
  unfold frame
  split_ifs
  · rw [bytes_getD _ (by omega), with_crc_below _ _ _ _ h]
  · rw [bytes_getD _ h]

/-- The byte behind the payload of a frame with checksum. -/
theorem frame_getD_after (s : State) (stack : Nat → Nat) (msg : List Nat)
    (hcrc : s.hs6200_crc ≠ 0) :
    (frame s stack msg).getD (3 + msg.length) 0 =
      (packed_body s stack msg (3 + msg.length)
        ||| (((crc_value s (packed_body s stack msg) msg.length >>> 8) % 256) >>> 1)) % 256 := by
  unfold frame
  rw [if_pos hcrc, bytes_getD _ (by omega), with_crc_at]

/-- A payload of 16 bytes is outside the scramble table: the bound on the
payload length is needed. -/
theorem write_payload_sixteen_leaves_table :
    calls_of (HS6200_WritePayload (fun _ => 0) (List.replicate 16 0) 16 (bind_codec 1)) = none := by
  decide

/-- C13. For every payload of at most 15 bytes and every state of the codec
(address, packet id, checksum flag) and of the stack, `HS6200_WritePayload`
returns: every read of `hs6200_scramble` is below index 15 and every access to
the working buffer below index 32, since an access outside them has no result
in the model. The frame it hands to the driver has L + 6 bytes when the
checksum flag is set and L + 3 when it is not, nothing else enters its length,
and it is at most 32 bytes long. -/
theorem write_payload_in_bounds (s : State) (stack : Nat → Nat) (msg : List Nat)
    (hlen : msg.length ≤ 15) :
    ∃ s1 f, HS6200_WritePayload stack msg msg.length s
        = some (s1, [Call.NRF24L01_WritePayload f])
      ∧ f.length = msg.length + (if s.hs6200_crc ≠ 0 then 6 else 3)
      ∧ f.length ≤ 32 := by
  refine ⟨_, _, HS6200_WritePayload_eq s stack msg hlen, frame_length s stack msg, ?_⟩
  rw [frame_length]
  split_ifs <;> omega

theorem write_payload_in_bounds_witness :
    [0xAA, 0xAA, 0x55, 0, 0, 0, 0, 0, 0, 0, 0, 0, 0, 0, 0].length ≤ 15
    ∧ ∃ s1 f, HS6200_WritePayload (fun _ => 0xff)
          [0xAA, 0xAA, 0x55, 0, 0, 0, 0, 0, 0, 0, 0, 0, 0, 0, 0]
          [0xAA, 0xAA, 0x55, 0, 0, 0, 0, 0, 0, 0, 0, 0, 0, 0, 0].length (bind_codec 1)
        = some (s1, [Call.NRF24L01_WritePayload f])
      ∧ f.length = [0xAA, 0xAA, 0x55, 0, 0, 0, 0, 0, 0, 0, 0, 0, 0, 0, 0].length
          + (if (bind_codec 1).hs6200_crc ≠ 0 then 6 else 3)
      ∧ f.length ≤ 32 :=
  ⟨by decide, write_payload_in_bounds (bind_codec 1) (fun _ => 0xff)
    [0xAA, 0xAA, 0x55, 0, 0, 0, 0, 0, 0, 0, 0, 0, 0, 0, 0] (by decide)⟩

/-- C15. With the checksum enabled, for every payload of 1 to 15 bytes and
`s[i] = msg[i] XOR hs6200_scramble[i]`: bits 6..0 of output byte 3 are the high
seven bits of `s[0]`; for `1 <= i < L` output byte `3 + i` has bit 7 equal to
the low bit of `s[i-1]` and bits 6..0 equal to the high seven bits of `s[i]`;
and bit 7 of output byte `3 + L`, into which the first checksum bits are OR-ed,
is the low bit of `s[L-1]`. -/
theorem payload_bit_layout (s : State) (stack : Nat → Nat) (msg : List Nat)
    (hcrc : s.hs6200_crc ≠ 0) (h1 : 1 ≤ msg.length) (hlen : msg.length ≤ 15)
    (hb : ∀ b ∈ msg, b < 256) :
    ∃ s1 f, HS6200_WritePayload stack msg msg.length s
        = some (s1, [Call.NRF24L01_WritePayload f])
      ∧ f.getD 3 0 % 128 = scrambled msg 0 >>> 1
      ∧ (∀ i, 1 ≤ i → i < msg.length →
          f.getD (3 + i) 0 >>> 7 = scrambled msg (i - 1) % 2
          ∧ f.getD (3 + i) 0 % 128 = scrambled msg i >>> 1)
      ∧ f.getD (3 + msg.length) 0 >>> 7 = scrambled msg (msg.length - 1) % 2 := by
  refine ⟨_, _, HS6200_WritePayload_eq s stack msg hlen, ?_, ?_, ?_⟩
  · rw [frame_getD_body s stack msg 3 (by omega), packed_body_first s stack msg h1]
    exact low_seven_first _ (scrambled_lt msg hb 0)
  · intro i hi1 hi2
    rw [frame_getD_body s stack msg (3 + i) (by omega),
      packed_body_straddle s stack msg i hi1 hi2]
    exact ⟨top_bit_straddle _ _ (scrambled_lt msg hb i),
      low_seven_straddle _ _ (scrambled_lt msg hb i)⟩
  · rw [frame_getD_after s stack msg hcrc, packed_body_last s stack msg h1]
    apply top_bit_last
    rw [Nat.shiftRight_eq_div_pow]
    omega

theorem payload_bit_layout_witness :
    ((bind_codec 1).hs6200_crc ≠ 0 ∧ 1 ≤ [0x12, 0x34, 0xff].length
      ∧ [0x12, 0x34, 0xff].length ≤ 15 ∧ ∀ b ∈ [0x12, 0x34, 0xff], b < 256)
    ∧ ∃ s1 f, HS6200_WritePayload (fun _ => 0xff) [0x12, 0x34, 0xff]
          [0x12, 0x34, 0xff].length (bind_codec 1)
        = some (s1, [Call.NRF24L01_WritePayload f])
      ∧ f.getD 3 0 % 128 = scrambled [0x12, 0x34, 0xff] 0 >>> 1
      ∧ (∀ i, 1 ≤ i → i < [0x12, 0x34, 0xff].length →
          f.getD (3 + i) 0 >>> 7 = scrambled [0x12, 0x34, 0xff] (i - 1) % 2
          ∧ f.getD (3 + i) 0 % 128 = scrambled [0x12, 0x34, 0xff] i >>> 1)
      ∧ f.getD (3 + [0x12, 0x34, 0xff].length) 0 >>> 7
          = scrambled [0x12, 0x34, 0xff] ([0x12, 0x34, 0xff].length - 1) % 2 :=
  ⟨⟨by decide, by decide, by decide, by decide⟩,
   payload_bit_layout (bind_codec 1) (fun _ => 0xff) [0x12, 0x34, 0xff]
     (by decide) (by decide) (by decide) (by decide)⟩

theorem control_byte_eq (len pid : Nat) (hlen : len ≤ 15) :
    (((len &&& 0x3f) <<< 2) ||| (pid &&& 0x03)) % 256 = (len <<< 2) ||| (pid % 4) := by
  have h1 : ∀ l, l ≤ 15 → l &&& 0x3f = l := by decide
  have h2 : pid &&& 0x03 = pid % 4 := Nat.and_pow_two_sub_one_eq_mod pid 2
  have h3 : 2 ^ 2 * len + pid % 4 = 2 ^ 2 * len ||| pid % 4 :=
    Nat.mul_add_lt_is_or (by omega) len
  rw [h1 len hlen, h2, Nat.shiftLeft_eq, Nat.mul_comm len (2 ^ 2), ← h3]
  omega

theorem no_ack_bit (x : Nat) : ((0x80 ||| x) % 256).testBit 7 = true := by
  have e : (256 : Nat) = 2 ^ 8 := by decide
  rw [e, Nat.testBit_mod_two_pow, Nat.testBit_or]
  have : (0x80 : Nat).testBit 7 = true := by decide
  simp [this]

/-- The header of one frame: guard bytes, control byte, and the no-ack bit
when the frame reaches byte 3. -/
theorem frame_header (s : State) (stack : Nat → Nat) (msg : List Nat) (hlen : msg.length ≤ 15) :
    (frame s stack msg).getD 0 0 = s.hs6200_tx_addr 0
    ∧ (frame s stack msg).getD 1 0 = s.hs6200_tx_addr 0
    ∧ (frame s stack msg).getD 2 0 = (msg.length <<< 2) ||| (s.pid % 4)
    ∧ (1 ≤ msg.length ∨ s.hs6200_crc ≠ 0 → ((frame s stack msg).getD 3 0).testBit 7 = true) := by
  refine ⟨?_, ?_, ?_, ?_⟩
  · rw [frame_getD_body s stack msg 0 (by omega)]
    simp [packed_body]
  · rw [frame_getD_body s stack msg 1 (by omega)]
    simp [packed_body]
  · rw [frame_getD_body s stack msg 2 (by omega)]
    simp only [packed_body, Nat.lt_irrefl, if_false, if_true]
    exact control_byte_eq _ _ hlen
  · intro h
    by_cases h1 : 1 ≤ msg.length
    · rw [frame_getD_body s stack msg 3 (by omega), packed_body_first s stack msg h1]
      exact no_ack_bit _
    · have hcrc : s.hs6200_crc ≠ 0 := by
        rcases h with h | h
        · exact absurd h h1
        · exact h
      have h0 : msg.length = 0 := by omega
      have e := frame_getD_after s stack msg hcrc
      rw [h0] at e
      rw [e]
      have hb : packed_body s stack msg 3 = 0x80 := by simp [packed_body, h0]
      rw [hb]
      exact no_ack_bit _

theorem frames_singleton (f : List Nat) : frames [Call.NRF24L01_WritePayload f] = [f] := rfl

/-- Successive calls from packet id `pid`: every call returns, the k-th frame
has the header for packet id `(pid + k) mod 4`, and the 8-bit packet id wraps
without disturbing it. -/
theorem write_sequence_header :
    ∀ (ws : List WriteCall) (pid : Nat), pid < 256 →
      (∀ w ∈ ws, w.msg.length ≤ 15 ∧ (1 ≤ w.msg.length ∨ w.codec.hs6200_crc ≠ 0)) →
      ∃ fs, write_sequence ws pid = some ((pid + ws.length) % 256, fs)
        ∧ fs.length = ws.length
        ∧ ∀ k, k < ws.length →
            ∃ w f, ws[k]? = some w ∧ fs[k]? = some f ∧ header_of w (pid + k) f := by
  intro ws
  induction ws with
  | nil =>
      intro pid hp _
      refine ⟨[], ?_, rfl, ?_⟩
      · simp [write_sequence, Nat.mod_eq_of_lt hp]
      · intro k hk
        simp at hk
  | cons w ws ih =>
      intro pid hp hall
      have hw := hall w (List.mem_cons_self w ws)
      have hrest : ∀ v ∈ ws, v.msg.length ≤ 15 ∧ (1 ≤ v.msg.length ∨ v.codec.hs6200_crc ≠ 0) :=
        fun v hv => hall v (List.mem_cons_of_mem w hv)
      obtain ⟨fs, hfs, hlen, hk⟩ := ih ((pid + 1) % 256) (Nat.mod_lt _ (by decide)) hrest
      have hcall := HS6200_WritePayload_eq { w.codec with pid := pid } w.stack w.msg hw.1
      have hhead := frame_header { w.codec with pid := pid } w.stack w.msg hw.1
      refine ⟨frame { w.codec with pid := pid } w.stack w.msg :: fs, ?_, ?_, ?_⟩
      · simp only [write_sequence, hcall, Option.bind_eq_bind, Option.some_bind, hfs,
          Option.pure_def, frames_singleton, List.singleton_append, List.length_cons]
        congr 2
        omega
      · simp [hlen]
      · intro k hklt
        cases k with
        | zero =>
            refine ⟨w, frame { w.codec with pid := pid } w.stack w.msg, by simp, by simp,
              hhead.1, hhead.2.1, ?_, hhead.2.2.2 hw.2⟩
            simpa using hhead.2.2.1
        | succ k =>
            obtain ⟨v, f, hv, hf, h0, h1, h2, h3⟩ := hk k (by simpa using hklt)
            refine ⟨v, f, by simpa using hv, by simpa using hf, h0, h1, ?_, h3⟩
            rw [h2]
            congr 1
            omega

/-- C14, evaluated on the code. With the checksum disabled and an empty
payload the frame handed to the driver has three bytes: the byte that holds the
no-ack bit is stored in the buffer but not counted into the length, so the
frame has no byte 3. -/
theorem no_ack_bit_dropped_for_empty_payload :
    calls_of (HS6200_WritePayload (fun _ => 0) [] 0 (bind_codec 0))
      = some [Call.NRF24L01_WritePayload [85, 85, 0]]
    ∧ ([85, 85, 0].getD 3 0).testBit 7 = false := by
  refine ⟨?_, ?_⟩ <;> decide

/-! ## The codec along a run -/

theorem frames_append (a b : List Call) : frames (a ++ b) = frames a ++ frames b := by
  simp [frames, List.filterMap_append]

theorem crc_fold_congr (f g : Nat → Nat) :
    ∀ (n init : Nat), (∀ i, i < n → f i = g i) →
      (List.range n).foldl (fun c i => crc_update c (f i) 8) init
        = (List.range n).foldl (fun c i => crc_update c (g i) 8) init := by
  intro n
  induction n with
  | zero => intro init _; simp only [List.range_zero, List.foldl_nil]
  | succ n ih =>
      intro init h
      rw [List.range_succ, List.foldl_append, List.foldl_append,
        ih init (fun i hi => h i (by omega))]
      simp only [List.foldl_cons, List.foldl_nil]
      rw [h n (by omega)]

/-- `HS6200_SetTXAddr` with five bytes makes them the active address and
leaves the seed of the active address. -/
theorem set_tx_addr_in_step (addr : Nat → Nat) (s : State) :
    bytes (HS6200_SetTXAddr addr 5 s).1.hs6200_tx_addr 5 = bytes addr 5
    ∧ (HS6200_SetTXAddr addr 5 s).1.hs6200_crc_init
        = seed_of (HS6200_SetTXAddr addr 5 s).1.hs6200_tx_addr := by
  constructor
  · show bytes (memcpy s.hs6200_tx_addr addr 5) 5 = bytes addr 5
    unfold bytes
    apply List.map_congr_left
    intro i hi
    have : i < 5 := List.mem_range.mp hi
    simp [memcpy, this]
  · show (List.range 5).foldl (fun crc i => crc_update crc (addr (5 - 1 - i)) 8) 0xffff
        = seed_of (memcpy s.hs6200_tx_addr addr 5)
    unfold seed_of
    apply crc_fold_congr (fun i => addr (5 - 1 - i))
      (fun i => memcpy s.hs6200_tx_addr addr 5 (5 - 1 - i))
    intro i _
    have : 5 - 1 - i < 5 := by omega
    simp [memcpy, this]

/-- What one `send_packet` leaves of the codec and what it hands over: the
active address and the seed stay, the packet buffer holds the payload built,
and exactly one frame goes to the driver, the encoding of that payload. -/
theorem send_packet_codec (p : Platform) (env : Env) (bind : Nat) (s : State)
    (h : bind ≠ 0 ∨ s.current_chan < NUM_RF_CHANNELS) :
    ∃ s1 c, send_packet p env bind s = some (s1, c)
      ∧ s1.hs6200_tx_addr = s.hs6200_tx_addr ∧ s1.hs6200_crc_init = s.hs6200_crc_init
      ∧ s1.packet = build_packet p env bind s
      ∧ frames c = [frame (before_write p env bind s) env.stack (build_packet p env bind s)] := by
  obtain ⟨v, hv⟩ := adjust_power_state p env (after_write p env bind s)
  refine ⟨_, _, send_packet_eq p env bind s h, ?_, ?_, ?_, ?_⟩
  · rw [hv]; rfl
  · rw [hv]; rfl
  · rw [hv]; rfl
  · rcases adjust_power_calls p env (after_write p env bind s) with e | e <;>
      rw [e] <;> simp [frames, transmission]

/-- One tick from a state with the cursor inside the table: it returns, keeps
the cursor inside the table and the derived address, keeps the codec in step,
and either hands one frame to the driver or, when it finds the countdown at
zero in the Binding phase, hands none and tells the observer. -/
theorem e012_callback_step (p : Platform) (env : Env) (s : State)
    (hc : s.current_chan < NUM_RF_CHANNELS) :
    ∃ period s2 c2, e012_callback p env s = some (period, s2, c2)
      ∧ s2.current_chan < NUM_RF_CHANNELS ∧ s2.tx_addr = s.tx_addr
      ∧ (codec_in_step s → codec_in_step s2)
      ∧ (frames c2).length + c2.count (Call.PROTOCOL_SetBindState 0) = 1
      ∧ (frames c2).length = (if s.phase = Phase.BIND ∧ s.bind_counter = 0 then 0 else 1) := by
  have hmod : ∀ x : Nat, x % NUM_RF_CHANNELS < NUM_RF_CHANNELS :=
    fun x => Nat.mod_lt _ (by decide)
  cases hp : s.phase with
  | BIND =>
      by_cases h0 : s.bind_counter = 0
      · have hcb := e012_callback_bind_zero p env s hp h0
        unfold switch_tick at hcb
        obtain ⟨a1, a2⟩ := set_tx_addr_in_step s.tx_addr s
        refine ⟨_, _, _, hcb, hc, rfl, ?_, ?_, ?_⟩
        · intro _
          refine ⟨?_, a2⟩
          show bytes (HS6200_SetTXAddr s.tx_addr 5 s).1.hs6200_tx_addr 5 = _
          rw [a1]
          rfl
        · simp [frames, HS6200_SetTXAddr]
        · simp [frames, HS6200_SetTXAddr, h0]
      · obtain ⟨s1, c, hs, h1, h2, h3, h4, h5, h6, h7⟩ :=
          send_packet_session p env 1 s (Or.inl (by decide))
        obtain ⟨s1b, cb, hsb, k1, k2, k3, k4⟩ := send_packet_codec p env 1 s (Or.inl (by decide))
        have hinj := Option.some.inj (hs.symm.trans hsb)
        have e1 : s1b = s1 := (congrArg Prod.fst hinj).symm
        have e2 : cb = c := (congrArg Prod.snd hinj).symm
        subst e1 e2
        have hcb : e012_callback p env s = some (PACKET_PERIOD,
            { s1b with bind_counter := (s1b.bind_counter + 65535) % 65536 }, cb) := by
          rw [e012_callback_bind_send p env s hp h0, bind_tick, hs]; rfl
        refine ⟨_, _, _, hcb, ?_, h4, ?_, ?_, ?_⟩
        · show s1b.current_chan < NUM_RF_CHANNELS
          rw [h5]; exact hmod _
        · intro hin
          unfold codec_in_step at hin ⊢
          show bytes s1b.hs6200_tx_addr 5 = (if s1b.phase = Phase.BIND then bind_address
              else bytes s1b.tx_addr 5) ∧ s1b.hs6200_crc_init = seed_of s1b.hs6200_tx_addr
          rw [k1, k2, h1, h4]
          exact hin
        · rw [k4, h7]; rfl
        · rw [k4]; simp [h0]
  | DATA =>
      obtain ⟨s1, c, hs, h1, h2, h3, h4, h5, h6, h7⟩ :=
        send_packet_session p env 0 s (Or.inr hc)
      obtain ⟨s1b, cb, hsb, k1, k2, k3, k4⟩ := send_packet_codec p env 0 s (Or.inr hc)
      have hinj := Option.some.inj (hs.symm.trans hsb)
      have e1 : s1b = s1 := (congrArg Prod.fst hinj).symm
      have e2 : cb = c := (congrArg Prod.snd hinj).symm
      subst e1 e2
      have hcb : e012_callback p env s = some (PACKET_PERIOD, s1b, cb) := by
        rw [e012_callback_data p env s hp, live_tick, hs]; rfl
      refine ⟨_, _, _, hcb, ?_, h4, ?_, ?_, ?_⟩
      · rw [h5]; exact hmod _
      · intro hin
        unfold codec_in_step at hin ⊢
        rw [k1, k2, h1, h4]
        exact hin
      · rw [k4, h7]; rfl
      · rw [k4]; simp

/-- Along every run from a state with the cursor inside the table: every tick
returns, the derived address stays, the codec stays in step, and every tick
either hands one frame to the driver or tells the observer that binding is
complete. -/
theorem ticks_in_step (p : Platform) :
    ∀ (envs : List Env) (s : State), s.current_chan < NUM_RF_CHANNELS →
      ∃ s1 c, ticks p envs s = some (s1, c)
        ∧ s1.current_chan < NUM_RF_CHANNELS ∧ s1.tx_addr = s.tx_addr
        ∧ (codec_in_step s → codec_in_step s1)
        ∧ (frames c).length + c.count (Call.PROTOCOL_SetBindState 0) = envs.length := by
  intro envs
  induction envs with
  | nil =>
      intro s hc
      exact ⟨s, [], rfl, hc, rfl, id, rfl⟩
  | cons env envs ih =>
      intro s hc
      obtain ⟨period, s2, c2, hcb, a1, a2, a3, a4, _⟩ := e012_callback_step p env s hc
      obtain ⟨s3, c3, ht, b1, b2, b3, b4⟩ := ih s2 a1
      refine ⟨s3, c2 ++ c3, ticks_cons p env envs s s2 s3 period c2 c3 hcb ht, b1,
        b2.trans a2, fun h => b3 (a3 h), ?_⟩
      rw [frames_append, List.length_append, List.count_append, List.length_cons]
      omega

/-- The codec as `initialize` leaves it: in step with the Binding phase. -/
theorem initialize_in_step (p : Platform) (env : Env) (s : State) :
    codec_in_step (initialize_protocol p env s).1 := by
  obtain ⟨a1, a2⟩ := set_tx_addr_in_step (arr bind_address)
    (initialize_txid p env
      (if (env.Model_tx_power % 256) > p.TXPOWER_10mW
        then { { s with tx_power := env.Model_tx_power % 256 } with
                tx_power := p.TXPOWER_10mW % 256 }
        else { s with tx_power := env.Model_tx_power % 256 })).1
  refine ⟨?_, ?_⟩
  · have hb : bytes (arr bind_address) 5 = bind_address := by decide
    rw [hb] at a1
    exact a1
  · exact a2

/-- C11. After `initialize`, whatever the state before it and whatever the
environment of each tick, every run of ticks returns in a state where the
active address of the codec is `bind_address` when the phase is Binding and the
derived `tx_addr` when the phase is Live, the checksum seed is the fold of
`crc_update` (eight bits per byte, from 0xFFFF) over the five bytes of the
active address taken last to first, and `tx_addr` is the address that
`initialize` derived. -/
theorem codec_address_follows_phase (p : Platform) (env0 : Env) (s : State)
    (envs : List Env) :
    ∃ s1 c, ticks p envs (initialize_protocol p env0 s).1 = some (s1, c)
      ∧ bytes s1.hs6200_tx_addr 5
          = (if s1.phase = Phase.BIND then bind_address else bytes s1.tx_addr 5)
      ∧ s1.hs6200_crc_init
          = (List.range 5).foldl
              (fun crc i => crc_update crc (s1.hs6200_tx_addr (5 - 1 - i)) 8) 0xffff
      ∧ s1.tx_addr = (initialize_protocol p env0 s).1.tx_addr
      ∧ bind_address = [0x55, 0x42, 0x9C, 0x8F, 0xC9] := by
  obtain ⟨_, _, hc⟩ := initialize_session p env0 s
  obtain ⟨s1, c, ht, _, b2, b3, _⟩ :=
    ticks_in_step p envs (initialize_protocol p env0 s).1 (by rw [hc]; decide)
  obtain ⟨i1, i2⟩ := b3 (initialize_in_step p env0 s)
  exact ⟨s1, c, ht, i1, i2, b2, rfl⟩

/-! ## Claims on frames, bind packets, channel table and power along a run -/

/-- C12, counterexample. In an `EMULATOR` build (`BIND_COUNT` 4) the fifth
call of `e012_callback` after `initialize` finds the countdown at zero in the
Binding phase and hands no frame to the driver. -/
theorem switch_tick_sends_no_frame :
    BIND_COUNT emulator = 4
    ∧ (ticks emulator (List.replicate 4 (bench 4))
          (initialize_protocol emulator (bench 4) State.zero).1).bind
        (fun r => (e012_callback emulator (bench 4) r.1).map (fun t => frames t.2.2))
      = some [] := by
  refine ⟨?_, ?_⟩ <;> decide!

/-- One `send_packet` that returns: it stores the payload it built in `packet`,
and the one frame it hands to the driver is what `HS6200_WritePayload` makes
of that payload. -/
theorem send_packet_encodes (p : Platform) (env : Env) (bind : Nat) (s : State)
    (h : bind ≠ 0 ∨ s.current_chan < NUM_RF_CHANNELS) :
    ∃ s1 c f, send_packet p env bind s = some (s1, c)
      ∧ frames c = [f]
      ∧ s1.packet = build_packet p env bind s
      ∧ calls_of (HS6200_WritePayload env.stack (build_packet p env bind s) PACKET_SIZE
            (before_write p env bind s)) = some [Call.NRF24L01_WritePayload f]
      ∧ s1.phase = s.phase := by
  obtain ⟨s1, c, hs, h1, _, _, _, _, _, _⟩ := send_packet_session p env bind s h
  obtain ⟨s1b, cb, hsb, _, _, k3, k4⟩ := send_packet_codec p env bind s h
  have hinj := Option.some.inj (hs.symm.trans hsb)
  have e1 : s1b = s1 := (congrArg Prod.fst hinj).symm
  have e2 : cb = c := (congrArg Prod.snd hinj).symm
  subst e1 e2
  have hw := HS6200_WritePayload_eq (before_write p env bind s) env.stack
    (build_packet p env bind s) (le_of_eq (build_packet_length p env bind s))
  rw [build_packet_length] at hw
  refine ⟨s1b, cb, _, hs, k4, k3, ?_, h1⟩
  show calls_of (HS6200_WritePayload env.stack _ 15 (before_write p env bind s)) = _
  rw [hw]
  rfl

/-- C12, amended. After `initialize`, whatever the state before it and whatever
the environment of each tick, every call of `e012_callback` returns. Call
number m + 1 builds a logical payload (the bind payload while m is below
`BIND_COUNT`, in the Binding phase; the live payload once m is above it, in the
Live phase), stores it in `packet`, and hands the driver exactly one frame,
the encoding of that payload by `HS6200_WritePayload`. The one exception is call
number `BIND_COUNT + 1`, which finds the countdown at zero in the Binding
phase: it builds no payload and hands no frame, its only calls are the write of
the derived address to the TX address register and `PROTOCOL_SetBindState(0)`,
and it leaves the derived address active and the phase Live. A run of m ticks
has handed over m frames, less one once it is longer than `BIND_COUNT`. -/
theorem one_frame_per_tick_but_the_switch (p : Platform) (env0 : Env) (s : State)
    (envs : List Env) (env : Env) :
    ∃ s1 c, ticks p envs (initialize_protocol p env0 s).1 = some (s1, c)
      ∧ (frames c).length = envs.length - (if BIND_COUNT p < envs.length then 1 else 0)
      ∧ s1.phase = (if envs.length ≤ BIND_COUNT p then Phase.BIND else Phase.DATA)
      ∧ ∃ period s2 c2, e012_callback p env s1 = some (period, s2, c2)
          ∧ (if envs.length = BIND_COUNT p then
              c2 = [Call.NRF24L01_WriteRegisterMulti Reg.NRF24L01_10_TX_ADDR
                      (bytes s1.tx_addr 5),
                    Call.PROTOCOL_SetBindState 0]
              ∧ frames c2 = [] ∧ s2.packet = s1.packet
              ∧ s2.phase = Phase.DATA
              ∧ bytes s2.hs6200_tx_addr 5 = bytes s1.tx_addr 5
             else
              ∃ f, frames c2 = [f]
                ∧ s2.packet = build_packet p env (if envs.length < BIND_COUNT p then 1 else 0) s1
                ∧ s2.packet.length = PACKET_SIZE
                ∧ calls_of (HS6200_WritePayload env.stack s2.packet PACKET_SIZE
                      (before_write p env (if envs.length < BIND_COUNT p then 1 else 0) s1))
                    = some [Call.NRF24L01_WritePayload f]
                ∧ s2.phase = s1.phase) := by
  obtain ⟨hp, hb, hc⟩ := initialize_session p env0 s
  have hN : BIND_COUNT p < 65536 := by unfold BIND_COUNT; split <;> decide
  obtain ⟨s1, c, ht, g1, g2, g3, g4, g5, g6, g7⟩ :=
    ticks_bind p envs (initialize_protocol p env0 s).1 hp hc (by rw [hb]; exact hN)
  rw [hb] at g1 g2 g7
  obtain ⟨s1b, cb, htb, b1, _, _, b4⟩ :=
    ticks_in_step p envs (initialize_protocol p env0 s).1 (by rw [hc]; decide)
  have hinj := Option.some.inj (ht.symm.trans htb)
  have e1 : s1b = s1 := (congrArg Prod.fst hinj).symm
  have e2 : cb = c := (congrArg Prod.snd hinj).symm
  subst e1 e2
  have hcount : (frames cb).length
      = envs.length - (if BIND_COUNT p < envs.length then 1 else 0) := by
    rw [g7] at b4
    split_ifs at b4 ⊢ <;> omega
  refine ⟨s1b, cb, ht, hcount, g2, ?_⟩
  by_cases hlt : envs.length < BIND_COUNT p
  · -- a bind packet
    have hle : envs.length ≤ BIND_COUNT p := by omega
    have hne : ¬ envs.length = BIND_COUNT p := by omega
    rw [if_pos hle] at g2
    obtain ⟨s2, c2, f, hs, k1, k2, k3, k4⟩ :=
      send_packet_encodes p env 1 s1b (Or.inl (by decide))
    have hcb : e012_callback p env s1b = some (PACKET_PERIOD,
        { s2 with bind_counter := (s2.bind_counter + 65535) % 65536 }, c2) := by
      rw [e012_callback_bind_send p env s1b g2 (by rw [g1]; omega), bind_tick, hs]; rfl
    refine ⟨_, _, _, hcb, ?_⟩
    rw [if_neg hne, if_pos hlt]
    refine ⟨f, k1, k2, ?_, ?_, k4⟩
    · show s2.packet.length = PACKET_SIZE
      rw [k2, build_packet_length]; rfl
    · show calls_of (HS6200_WritePayload env.stack s2.packet PACKET_SIZE _) = _
      rw [k2]; exact k3
  · by_cases heq : envs.length = BIND_COUNT p
    · -- the switch to the Live phase
      have hle : envs.length ≤ BIND_COUNT p := by omega
      rw [if_pos hle] at g2
      have hcb := e012_callback_bind_zero p env s1b g2 (by rw [g1]; omega)
      unfold switch_tick at hcb
      refine ⟨_, _, _, hcb, ?_⟩
      rw [if_pos heq]
      exact ⟨rfl, rfl, rfl, rfl, (set_tx_addr_in_step s1b.tx_addr s1b).1⟩
    · -- a live packet
      have hle : ¬ envs.length ≤ BIND_COUNT p := by omega
      rw [if_neg hle] at g2
      obtain ⟨s2, c2, f, hs, k1, k2, k3, k4⟩ := send_packet_encodes p env 0 s1b (Or.inr b1)
      have hcb : e012_callback p env s1b = some (PACKET_PERIOD, s2, c2) := by
        rw [e012_callback_data p env s1b g2, live_tick, hs]; rfl
      refine ⟨_, _, _, hcb, ?_⟩
      rw [if_neg heq, if_neg hlt]
      refine ⟨f, k1, k2, ?_, ?_, k4⟩
      · rw [k2, build_packet_length]; rfl
      · rw [k2]; exact k3

/-- C16. For every state and environment `send_packet(1)` returns, writes
`RF_BIND_CHANNEL` (0x3c) to the RF channel register whatever `rf_chans` holds,
and hands the driver one frame, the encoding of the 15-byte payload
`[tx_addr[1], 0xaa, rf_chans[0..3], tx_addr[0..4], 0x00, 0x00, 0x56, tx_addr[2]]`,
whose bytes 2..5 are the channel table and bytes 6..10 the derived address. -/
theorem bind_packet_contents (p : Platform) (env : Env) (s : State) :
    ∃ s1 c f, send_packet p env 1 s = some (s1, c)
      ∧ rf_channels c = [RF_BIND_CHANNEL] ∧ RF_BIND_CHANNEL = 0x3c
      ∧ s1.packet =
          [s.tx_addr 1, 0xaa, s.rf_chans 0, s.rf_chans 1, s.rf_chans 2, s.rf_chans 3,
           s.tx_addr 0, s.tx_addr 1, s.tx_addr 2, s.tx_addr 3, s.tx_addr 4,
           0x00, 0x00, 0x56, s.tx_addr 2]
      ∧ frames c = [f]
      ∧ calls_of (HS6200_WritePayload env.stack
            [s.tx_addr 1, 0xaa, s.rf_chans 0, s.rf_chans 1, s.rf_chans 2, s.rf_chans 3,
             s.tx_addr 0, s.tx_addr 1, s.tx_addr 2, s.tx_addr 3, s.tx_addr 4,
             0x00, 0x00, 0x56, s.tx_addr 2] PACKET_SIZE (before_write p env 1 s))
          = some [Call.NRF24L01_WritePayload f]
      ∧ (s1.packet.drop 2).take 4 = bytes s.rf_chans NUM_RF_CHANNELS
      ∧ (s1.packet.drop 6).take 5 = bytes s.tx_addr ADDRESS_LENGTH := by
  obtain ⟨s1, c, hs, h1, h2, h3, h4, h5, h6, h7⟩ :=
    send_packet_session p env 1 s (Or.inl (by decide))
  obtain ⟨s1b, cb, hsb, k1, k2, k3, k4⟩ := send_packet_codec p env 1 s (Or.inl (by decide))
  have hinj := Option.some.inj (hs.symm.trans hsb)
  have e1 : s1b = s1 := (congrArg Prod.fst hinj).symm
  have e2 : cb = c := (congrArg Prod.snd hinj).symm
  subst e1 e2
  have hpk : build_packet p env 1 s =
      [s.tx_addr 1, 0xaa, s.rf_chans 0, s.rf_chans 1, s.rf_chans 2, s.rf_chans 3,
       s.tx_addr 0, s.tx_addr 1, s.tx_addr 2, s.tx_addr 3, s.tx_addr 4,
       0x00, 0x00, 0x56, s.tx_addr 2] := by
    simp [build_packet]
  have hw := HS6200_WritePayload_eq (before_write p env 1 s) env.stack
    (build_packet p env 1 s) (le_of_eq (build_packet_length p env 1 s))
  rw [build_packet_length] at hw
  rw [hpk] at k3 k4 hw
  refine ⟨s1b, cb, _, hs, ?_, rfl, k3, k4, ?_, ?_, ?_⟩
  · simpa using h6
  · show calls_of (HS6200_WritePayload env.stack _ 15 (before_write p env 1 s)) = _
    rw [hw]
    rfl
  · rw [k3]
    simp [bytes, NUM_RF_CHANNELS, List.range, List.range.loop]
  · rw [k3]
    simp [bytes, ADDRESS_LENGTH, List.range, List.range.loop]

theorem powers_transmission (p : Platform) (env : Env) (bind : Nat) (s : State) :
    powers (transmission p env bind s) = [] := by
  simp [powers, transmission]

theorem powers_append (a b : List Call) : powers (a ++ b) = powers a ++ powers b := by
  simp [powers, List.filterMap_append]

/-- C19. For every prior `tx_power` (a `u8`) and every configured
`Model.tx_power` (a power level, below 256), when `send_packet` returns the
stored `tx_power` equals `Model.tx_power`, and `NRF24L01_SetPower` is called
during it exactly when `Model.tx_power` differs from the smaller of the prior
`tx_power` and `TXPOWER_10mW`, once, with `Model.tx_power` as its argument. -/
theorem power_follows_model (p : Platform) (env : Env) (bind : Nat) (s : State)
    (h : bind ≠ 0 ∨ s.current_chan < NUM_RF_CHANNELS)
    (hprior : s.tx_power < 256) (hmodel : env.Model_tx_power < 256) :
    ∃ s1 c, send_packet p env bind s = some (s1, c)
      ∧ s1.tx_power = env.Model_tx_power
      ∧ powers c =
          (if env.Model_tx_power ≠ min s.tx_power p.TXPOWER_10mW then [env.Model_tx_power]
           else []) := by
  refine ⟨_, _, send_packet_eq p env bind s h, ?_, ?_⟩
  · show (adjust_power p env (after_write p env bind s)).1.tx_power = env.Model_tx_power
    unfold adjust_power
    have e : (after_write p env bind s).tx_power = s.tx_power := rfl
    simp only [e]
    split_ifs with a b b
    · exact Nat.mod_eq_of_lt hmodel
    · simp only [ne_eq, not_not] at b
      exact b
    · exact Nat.mod_eq_of_lt hmodel
    · simp only [ne_eq, not_not] at b
      exact b
  · rw [powers_append, powers_transmission, List.nil_append]
    unfold adjust_power
    have e : (after_write p env bind s).tx_power = s.tx_power := rfl
    simp only [e]
    have hm : env.Model_tx_power % 256 = env.Model_tx_power := Nat.mod_eq_of_lt hmodel
    by_cases a : s.tx_power > p.TXPOWER_10mW
    · have hT : p.TXPOWER_10mW % 256 = p.TXPOWER_10mW := Nat.mod_eq_of_lt (by omega)
      have hmin : min s.tx_power p.TXPOWER_10mW = p.TXPOWER_10mW := by omega
      simp only [a, if_true, hT, hmin, hm]
      split_ifs with b c c
      · rfl
      · exact absurd (Ne.symm b) c
      · exact absurd (Ne.symm c) b
      · rfl
    · have hmin : min s.tx_power p.TXPOWER_10mW = s.tx_power := by omega
      simp only [a, if_false, hmin, hm]
      split_ifs with b c c
      · rfl
      · exact absurd (Ne.symm b) c
      · exact absurd (Ne.symm c) b
      · rfl

theorem power_follows_model_witness :
    (((1 : Nat) ≠ 0 ∨ State.zero.current_chan < NUM_RF_CHANNELS)
      ∧ State.zero.tx_power < 256 ∧ (bench 5).Model_tx_power < 256)
    ∧ ∃ s1 c, send_packet hardware (bench 5) 1 State.zero = some (s1, c)
      ∧ s1.tx_power = (bench 5).Model_tx_power
      ∧ powers c =
          (if (bench 5).Model_tx_power ≠ min State.zero.tx_power hardware.TXPOWER_10mW
            then [(bench 5).Model_tx_power] else []) :=
  ⟨⟨Or.inl (by decide), by decide, by decide⟩,
   power_follows_model hardware (bench 5) 1 State.zero (Or.inl (by decide))
     (by decide) (by decide)⟩

/-! ## Claims on the live payload -/

/-- The channel value after the clamp, less the lower limit, lies between 0
and the channel range. -/
theorem clamped_offset (p : Platform) (v : Int) (hlt : p.CHAN_MIN_VALUE < p.CHAN_MAX_VALUE) :
    0 ≤ (if v < p.CHAN_MIN_VALUE then p.CHAN_MIN_VALUE
          else if v > p.CHAN_MAX_VALUE then p.CHAN_MAX_VALUE else v) - p.CHAN_MIN_VALUE
    ∧ (if v < p.CHAN_MIN_VALUE then p.CHAN_MIN_VALUE
          else if v > p.CHAN_MAX_VALUE then p.CHAN_MAX_VALUE else v) - p.CHAN_MIN_VALUE
        ≤ p.CHAN_MAX_VALUE - p.CHAN_MIN_VALUE := by
  split_ifs <;> constructor <;> omega

/-- The quotient of `scale_channel` for a range of 200. -/
theorem quotient_bounds (d r : Int) (hd0 : 0 ≤ d) (hdr : d ≤ r) (hr : 0 < r) :
    0 ≤ Int.tdiv (200 * d) r ∧ Int.tdiv (200 * d) r ≤ 200 := by
  have h1 : (0 : Int) ≤ 200 * d := by omega
  rw [Int.tdiv_eq_ediv h1 (le_of_lt hr)]
  exact ⟨Int.ediv_nonneg h1 (le_of_lt hr), Int.ediv_le_of_le_mul hr (by omega)⟩

/-- The two scalings of `send_packet` in terms of one quotient `q`: the direct
one is `q` and the inverted one `200 - q`, with `q` between 0 and 200. -/
theorem scale_channel_quotient (p : Platform) (env : Env) (ch : Nat)
    (hlt : p.CHAN_MIN_VALUE < p.CHAN_MAX_VALUE)
    (hov : 200 * (p.CHAN_MAX_VALUE - p.CHAN_MIN_VALUE) < 2147483648) :
    ∃ q : Nat, q ≤ 200 ∧ scale_channel p env ch 0x00 0xc8 = q
      ∧ scale_channel p env ch 0xc8 0x00 = 200 - q := by
  obtain ⟨hd0, hdr⟩ := clamped_offset p (env.Channels ch) hlt
  generalize hd : (if env.Channels ch < p.CHAN_MIN_VALUE then p.CHAN_MIN_VALUE
      else if env.Channels ch > p.CHAN_MAX_VALUE then p.CHAN_MAX_VALUE
      else env.Channels ch) - p.CHAN_MIN_VALUE = d at hd0 hdr
  have hr : CHAN_RANGE p = p.CHAN_MAX_VALUE - p.CHAN_MIN_VALUE :=
    s32_eq _ (by omega) (by omega)
  obtain ⟨hq0, hq1⟩ := quotient_bounds d (p.CHAN_MAX_VALUE - p.CHAN_MIN_VALUE) hd0 hdr (by omega)
  have hsd : s32 d = d := s32_eq _ (by omega) (by omega)
  refine ⟨(Int.tdiv (200 * d) (p.CHAN_MAX_VALUE - p.CHAN_MIN_VALUE)).toNat, by omega, ?_, ?_⟩
  · rw [scale_channel_eq, hd, hr, hsd]
    have e1 : s32 (((0xc8 : Nat) : Int) - ((0x00 : Nat) : Int)) = 200 := by decide
    have e2 : s32 (200 * d) = 200 * d := s32_eq _ (by omega) (by omega)
    rw [e1, e2]
    have e3 : s32 (Int.tdiv (200 * d) (p.CHAN_MAX_VALUE - p.CHAN_MIN_VALUE)
        + ((0x00 : Nat) : Int)) = Int.tdiv (200 * d) (p.CHAN_MAX_VALUE - p.CHAN_MIN_VALUE) := by
      rw [s32_eq _ (by simp; omega) (by simp; omega)]
      simp
    rw [e3]
    omega
  · rw [scale_channel_eq, hd, hr, hsd]
    have e1 : s32 (((0x00 : Nat) : Int) - ((0xc8 : Nat) : Int)) = -200 := by decide
    have e2 : s32 (-200 * d) = -(200 * d) := by
      rw [s32_eq _ (by omega) (by omega)]
      omega
    rw [e1, e2, Int.neg_tdiv]
    have e3 : s32 (-Int.tdiv (200 * d) (p.CHAN_MAX_VALUE - p.CHAN_MIN_VALUE)
        + ((0xc8 : Nat) : Int)) = 200 - Int.tdiv (200 * d) (p.CHAN_MAX_VALUE - p.CHAN_MIN_VALUE) := by
      rw [s32_eq _ (by simp; omega) (by simp; omega)]
      simp
      omega
    rw [e3]
    omega

/-- C20. With `CHAN_MIN_VALUE < CHAN_MAX_VALUE` and the product of 200 and the
channel range inside `s32`, for every channel and every channel value the
inverted scaling is the mirror of the direct one,
`scale_channel(ch, 0xc8, 0x00) = 0xc8 - scale_channel(ch, 0x00, 0xc8)`, and both
results lie in 0..0xc8, so that the byte stored equals the value returned. -/
theorem inverted_scaling_mirrors_direct (p : Platform) (env : Env) (ch : Nat) (v : Int)
    (hlt : p.CHAN_MIN_VALUE < p.CHAN_MAX_VALUE)
    (hov : 200 * (p.CHAN_MAX_VALUE - p.CHAN_MIN_VALUE) < 2147483648) :
    scale_channel p (with_channel env ch v) ch 0xc8 0x00
        = 0xc8 - scale_channel p (with_channel env ch v) ch 0x00 0xc8
    ∧ scale_channel p (with_channel env ch v) ch 0x00 0xc8 ≤ 0xc8
    ∧ scale_channel p (with_channel env ch v) ch 0xc8 0x00 ≤ 0xc8
    ∧ scale_channel p (with_channel env ch v) ch 0x00 0xc8 % 256
        = scale_channel p (with_channel env ch v) ch 0x00 0xc8
    ∧ scale_channel p (with_channel env ch v) ch 0xc8 0x00 % 256
        = scale_channel p (with_channel env ch v) ch 0xc8 0x00 := by
  obtain ⟨q, hq, h1, h2⟩ := scale_channel_quotient p (with_channel env ch v) ch hlt hov
  rw [h1, h2]
  refine ⟨rfl, ?_, ?_, ?_, ?_⟩ <;> omega

theorem inverted_scaling_mirrors_direct_witness :
    (hardware.CHAN_MIN_VALUE < hardware.CHAN_MAX_VALUE
      ∧ 200 * (hardware.CHAN_MAX_VALUE - hardware.CHAN_MIN_VALUE) < 2147483648)
    ∧ (scale_channel hardware (with_channel (bench 4) CHANNEL1 (-3333)) CHANNEL1 0xc8 0x00
        = 0xc8 - scale_channel hardware (with_channel (bench 4) CHANNEL1 (-3333)) CHANNEL1
            0x00 0xc8
    ∧ scale_channel hardware (with_channel (bench 4) CHANNEL1 (-3333)) CHANNEL1 0x00 0xc8 ≤ 0xc8
    ∧ scale_channel hardware (with_channel (bench 4) CHANNEL1 (-3333)) CHANNEL1 0xc8 0x00 ≤ 0xc8
    ∧ scale_channel hardware (with_channel (bench 4) CHANNEL1 (-3333)) CHANNEL1 0x00 0xc8 % 256
        = scale_channel hardware (with_channel (bench 4) CHANNEL1 (-3333)) CHANNEL1 0x00 0xc8
    ∧ scale_channel hardware (with_channel (bench 4) CHANNEL1 (-3333)) CHANNEL1 0xc8 0x00 % 256
        = scale_channel hardware (with_channel (bench 4) CHANNEL1 (-3333)) CHANNEL1 0xc8 0x00) :=
  ⟨⟨by decide, by decide⟩,
   inverted_scaling_mirrors_direct hardware (bench 4) CHANNEL1 (-3333) (by decide) (by decide)⟩

/-- The flag byte of the live payload: bit 0 always, bits 2, 4 and 6 by the
sign of the three switch channels, and no other bit. -/
theorem flag_byte (env : Env) :
    (0x01 ||| GET_FLAG env CHANNEL_RTH 0x04 ||| GET_FLAG env CHANNEL_HEADLESS 0x10
        ||| GET_FLAG env CHANNEL_FLIP 0x40).testBit 0 = true
    ∧ ((0x01 ||| GET_FLAG env CHANNEL_RTH 0x04 ||| GET_FLAG env CHANNEL_HEADLESS 0x10
        ||| GET_FLAG env CHANNEL_FLIP 0x40).testBit 2 = true ↔ env.Channels CHANNEL10 > 0)
    ∧ ((0x01 ||| GET_FLAG env CHANNEL_RTH 0x04 ||| GET_FLAG env CHANNEL_HEADLESS 0x10
        ||| GET_FLAG env CHANNEL_FLIP 0x40).testBit 4 = true ↔ env.Channels CHANNEL9 > 0)
    ∧ ((0x01 ||| GET_FLAG env CHANNEL_RTH 0x04 ||| GET_FLAG env CHANNEL_HEADLESS 0x10
        ||| GET_FLAG env CHANNEL_FLIP 0x40).testBit 6 = true ↔ env.Channels CHANNEL6 > 0)
    ∧ (0x01 ||| GET_FLAG env CHANNEL_RTH 0x04 ||| GET_FLAG env CHANNEL_HEADLESS 0x10
        ||| GET_FLAG env CHANNEL_FLIP 0x40) &&& 0xAA = 0
    ∧ (0x01 ||| GET_FLAG env CHANNEL_RTH 0x04 ||| GET_FLAG env CHANNEL_HEADLESS 0x10
        ||| GET_FLAG env CHANNEL_FLIP 0x40) < 256 := by
  unfold GET_FLAG CHANNEL_RTH CHANNEL_HEADLESS CHANNEL_FLIP
  by_cases h10 : env.Channels CHANNEL10 > 0 <;> by_cases h9 : env.Channels CHANNEL9 > 0 <;>
    by_cases h6 : env.Channels CHANNEL6 > 0 <;>
    simp only [h10, h9, h6, if_true, if_false, iff_true, iff_false] <;> decide

/-- Byte 1 of the live payload is the flag byte of the spec. -/
theorem flag_byte_eq (env : Env) :
    (0x01 ||| GET_FLAG env CHANNEL_RTH 0x04 ||| GET_FLAG env CHANNEL_HEADLESS 0x10
        ||| GET_FLAG env CHANNEL_FLIP 0x40) = live_flags env := by
  unfold live_flags GET_FLAG CHANNEL_RTH CHANNEL_HEADLESS CHANNEL_FLIP
  by_cases h10 : env.Channels CHANNEL10 > 0 <;> by_cases h9 : env.Channels CHANNEL9 > 0 <;>
    by_cases h6 : env.Channels CHANNEL6 > 0 <;>
    simp only [h10, h9, h6, if_true, if_false] <;> decide

/-- The clamp of `scale_channel`, written with `max` and `min`. -/
theorem clamp_eq (p : Platform) (v : Int) (hlt : p.CHAN_MIN_VALUE < p.CHAN_MAX_VALUE) :
    (if v < p.CHAN_MIN_VALUE then p.CHAN_MIN_VALUE
      else if v > p.CHAN_MAX_VALUE then p.CHAN_MAX_VALUE else v)
      = max p.CHAN_MIN_VALUE (min v p.CHAN_MAX_VALUE) := by
  split_ifs <;> omega

/-- The two scalings of `send_packet` against the scaling of the spec: with the
limits in order and the product of 200 and the channel range inside `s32`,
no intermediate result of `scale_channel` wraps, the truncating division is
applied to a quotient of one sign, the direct scaling is the clamped linear
rescaling rounded down and the inverted one is 0xc8 less it. -/
theorem scale_channel_reference (p : Platform) (env : Env) (ch : Nat)
    (hlt : p.CHAN_MIN_VALUE < p.CHAN_MAX_VALUE)
    (hov : 200 * (p.CHAN_MAX_VALUE - p.CHAN_MIN_VALUE) < 2147483648) :
    scale_channel p env ch 0x00 0xc8 = direct_scaling p (env.Channels ch)
      ∧ scale_channel p env ch 0xc8 0x00 = 0xc8 - direct_scaling p (env.Channels ch)
      ∧ direct_scaling p (env.Channels ch) ≤ 0xc8 := by
  obtain ⟨hd0, hdr⟩ := clamped_offset p (env.Channels ch) hlt
  unfold direct_scaling
  rw [← clamp_eq p (env.Channels ch) hlt]
  generalize hd : (if env.Channels ch < p.CHAN_MIN_VALUE then p.CHAN_MIN_VALUE
      else if env.Channels ch > p.CHAN_MAX_VALUE then p.CHAN_MAX_VALUE
      else env.Channels ch) - p.CHAN_MIN_VALUE = d at hd0 hdr
  have hr : CHAN_RANGE p = p.CHAN_MAX_VALUE - p.CHAN_MIN_VALUE :=
    s32_eq _ (by omega) (by omega)
  obtain ⟨hq0, hq1⟩ := quotient_bounds d (p.CHAN_MAX_VALUE - p.CHAN_MIN_VALUE) hd0 hdr (by omega)
  have hsd : s32 d = d := s32_eq _ (by omega) (by omega)
  have hte : Int.tdiv (200 * d) (p.CHAN_MAX_VALUE - p.CHAN_MIN_VALUE)
      = 200 * d / (p.CHAN_MAX_VALUE - p.CHAN_MIN_VALUE) :=
    Int.tdiv_eq_ediv (by omega) (by omega)
  rw [← hte]
  refine ⟨?_, ?_, by omega⟩
  · rw [scale_channel_eq, hd, hr, hsd]
    have e1 : s32 (((0xc8 : Nat) : Int) - ((0x00 : Nat) : Int)) = 200 := by decide
    have e2 : s32 (200 * d) = 200 * d := s32_eq _ (by omega) (by omega)
    rw [e1, e2]
    have e3 : s32 (Int.tdiv (200 * d) (p.CHAN_MAX_VALUE - p.CHAN_MIN_VALUE)
        + ((0x00 : Nat) : Int)) = Int.tdiv (200 * d) (p.CHAN_MAX_VALUE - p.CHAN_MIN_VALUE) := by
      rw [s32_eq _ (by simp; omega) (by simp; omega)]
      simp
    rw [e3]
    omega
  · rw [scale_channel_eq, hd, hr, hsd]
    have e1 : s32 (((0x00 : Nat) : Int) - ((0xc8 : Nat) : Int)) = -200 := by decide
    have e2 : s32 (-200 * d) = -(200 * d) := by
      rw [s32_eq _ (by omega) (by omega)]
      omega
    rw [e1, e2, Int.neg_tdiv]
    have e3 : s32 (-Int.tdiv (200 * d) (p.CHAN_MAX_VALUE - p.CHAN_MIN_VALUE)
        + ((0xc8 : Nat) : Int)) = 200 - Int.tdiv (200 * d) (p.CHAN_MAX_VALUE - p.CHAN_MIN_VALUE) := by
      rw [s32_eq _ (by simp; omega) (by simp; omega)]
      simp
      omega
    rw [e3]
    omega

/-- With the cursor outside the channel table `send_packet(0)` reads
`rf_chans` outside the array. -/
theorem send_packet_cursor_outside (p : Platform) (env : Env) (s : State)
    (hc : ¬ s.current_chan < NUM_RF_CHANNELS) : send_packet p env 0 s = none := by
  simp [send_packet, HS6200_Configure, rd, hc]

/-- The live payload as `send_packet(0)` stores it, for every platform: the
flag byte and the four values of `scale_channel`, each cut to a byte. -/
theorem live_packet_bytes (p : Platform) (env : Env) (s : State) :
    (send_packet p env 0 s).map (fun r => r.1.packet)
      = (if s.current_chan < NUM_RF_CHANNELS then
          some [s.tx_addr 1, live_flags env,
            scale_channel p env CHANNEL1 0xc8 0x00 % 256,
            scale_channel p env CHANNEL2 0x00 0xc8 % 256,
            scale_channel p env CHANNEL4 0xc8 0x00 % 256,
            scale_channel p env CHANNEL3 0x00 0xc8 % 256,
            0xaa, 0x02, 0x00, 0x00, 0x00, 0x00, 0x00, 0x56, s.tx_addr 2]
        else none) := by
  by_cases hc : s.current_chan < NUM_RF_CHANNELS
  · obtain ⟨s1, c, hs, _, _, k3, _⟩ := send_packet_codec p env 0 s (Or.inr hc)
    rw [hs, if_pos hc, Option.map_some', k3, ← flag_byte_eq]
    simp [build_packet]
  · rw [send_packet_cursor_outside p env s hc, if_neg hc]
    rfl

/-- C17. The limits `CHAN_MIN_VALUE` and `CHAN_MAX_VALUE` are constants of a
header and enter as parameters; they are taken in order and such that 200
times the channel range fits `s32`. Then for every set of channel values and
every state, `send_packet(0)` run with the cursor inside the channel table
returns and leaves in `packet` the 15 bytes listed here (with the cursor
outside the table the read of `rf_chans` leaves the array). Byte 1 is the
flag byte: bit 0x01 is set, bit 0x04 is set iff `Channels[CHANNEL10] > 0`, bit
0x10 iff `Channels[CHANNEL9] > 0`, bit 0x40 iff `Channels[CHANNEL6] > 0`, and
no other bit is set. Bytes 2 and 4 are the inverted scalings of channels 1
and 4 and bytes 3 and 5 the direct scalings of channels 2 and 3: the direct
scaling is the channel value clamped to the limits and rescaled linearly onto
0x00..0xc8, rounded down, the inverted scaling is 0xc8 less it, these are the
values `scale_channel` returns for the destinations 0x00 up to 0xc8 and 0xc8
down to 0x00, and each lies within 0..0xc8. Byte 7 is 0x02. -/
theorem live_packet_contents (p : Platform) (env : Env) (s : State)
    (hlt : p.CHAN_MIN_VALUE < p.CHAN_MAX_VALUE)
    (hov : 200 * (p.CHAN_MAX_VALUE - p.CHAN_MIN_VALUE) < 2147483648) :
    (send_packet p env 0 s).map (fun r => r.1.packet)
        = (if s.current_chan < NUM_RF_CHANNELS then
            some [s.tx_addr 1, live_flags env,
              0xc8 - direct_scaling p (env.Channels CHANNEL1),
              direct_scaling p (env.Channels CHANNEL2),
              0xc8 - direct_scaling p (env.Channels CHANNEL4),
              direct_scaling p (env.Channels CHANNEL3),
              0xaa, 0x02, 0x00, 0x00, 0x00, 0x00, 0x00, 0x56, s.tx_addr 2]
          else none)
      ∧ (live_flags env).testBit 0 = true
      ∧ ((live_flags env).testBit 2 = true ↔ env.Channels CHANNEL10 > 0)
      ∧ ((live_flags env).testBit 4 = true ↔ env.Channels CHANNEL9 > 0)
      ∧ ((live_flags env).testBit 6 = true ↔ env.Channels CHANNEL6 > 0)
      ∧ live_flags env &&& 0xAA = 0 ∧ live_flags env < 256
      ∧ scale_channel p env CHANNEL1 0xc8 0x00 = 0xc8 - direct_scaling p (env.Channels CHANNEL1)
      ∧ scale_channel p env CHANNEL2 0x00 0xc8 = direct_scaling p (env.Channels CHANNEL2)
      ∧ scale_channel p env CHANNEL4 0xc8 0x00 = 0xc8 - direct_scaling p (env.Channels CHANNEL4)
      ∧ scale_channel p env CHANNEL3 0x00 0xc8 = direct_scaling p (env.Channels CHANNEL3)
      ∧ direct_scaling p (env.Channels CHANNEL1) ≤ 0xc8
      ∧ direct_scaling p (env.Channels CHANNEL2) ≤ 0xc8
      ∧ direct_scaling p (env.Channels CHANNEL4) ≤ 0xc8
      ∧ direct_scaling p (env.Channels CHANNEL3) ≤ 0xc8 := by
  obtain ⟨f0, f2, f4, f6, fo, fl⟩ := flag_byte env
  rw [flag_byte_eq] at f0 f2 f4 f6 fo fl
  obtain ⟨a1, b1, c1⟩ := scale_channel_reference p env CHANNEL1 hlt hov
  obtain ⟨a2, b2, c2⟩ := scale_channel_reference p env CHANNEL2 hlt hov
  obtain ⟨a3, b3, c3⟩ := scale_channel_reference p env CHANNEL3 hlt hov
  obtain ⟨a4, b4, c4⟩ := scale_channel_reference p env CHANNEL4 hlt hov
  have m1 : (0xc8 - direct_scaling p (env.Channels CHANNEL1)) % 256
      = 0xc8 - direct_scaling p (env.Channels CHANNEL1) := by omega
  have m2 : direct_scaling p (env.Channels CHANNEL2) % 256
      = direct_scaling p (env.Channels CHANNEL2) := by omega
  have m3 : direct_scaling p (env.Channels CHANNEL3) % 256
      = direct_scaling p (env.Channels CHANNEL3) := by omega
  have m4 : (0xc8 - direct_scaling p (env.Channels CHANNEL4)) % 256
      = 0xc8 - direct_scaling p (env.Channels CHANNEL4) := by omega
  refine ⟨?_, f0, f2, f4, f6, fo, fl, b1, a2, b4, a3, c1, c2, c4, c3⟩
  rw [live_packet_bytes, b1, a2, b4, a3, m1, m2, m3, m4]

theorem live_packet_contents_witness :
    (hardware.CHAN_MIN_VALUE < hardware.CHAN_MAX_VALUE
      ∧ 200 * (hardware.CHAN_MAX_VALUE - hardware.CHAN_MIN_VALUE) < 2147483648)
    ∧ ((send_packet hardware flying 0 State.zero).map (fun r => r.1.packet)
        = some [0x00, 0x45, 134, 125, 0, 0, 0xaa, 0x02, 0x00, 0x00, 0x00, 0x00, 0x00, 0x56, 0x00]
      ∧ (0x45).testBit 0 = true
      ∧ ((0x45).testBit 2 = true ↔ (5000 : Int) > 0)
      ∧ ((0x45).testBit 4 = true ↔ (-5000 : Int) > 0)
      ∧ ((0x45).testBit 6 = true ↔ (1 : Int) > 0)
      ∧ 0x45 &&& 0xAA = 0 ∧ 0x45 < 256
      ∧ scale_channel hardware flying CHANNEL1 0xc8 0x00 = 134
      ∧ scale_channel hardware flying CHANNEL2 0x00 0xc8 = 125
      ∧ scale_channel hardware flying CHANNEL4 0xc8 0x00 = 0
      ∧ scale_channel hardware flying CHANNEL3 0x00 0xc8 = 0
      ∧ 66 ≤ 0xc8 ∧ 125 ≤ 0xc8 ∧ 200 ≤ 0xc8 ∧ 0 ≤ 0xc8) :=
  ⟨⟨by decide, by decide⟩,
   live_packet_contents hardware flying State.zero (by decide) (by decide)⟩

end E012
